import Mathlib

/-!
Verification development for the israeli-bank-firefly-importer repository.

The TypeScript sources are shallowly embedded as Lean definitions:

* machine numbers (JS floats holding monetary amounts) are modelled as
  rationals;
* dates are modelled as whole-day integers: a field of type
  Option Int is none when the date string is missing or unparseable
  (a moment with isValid false), and some d when it denotes day d.
  moment diff with unit days on such values is exact integer
  subtraction;
* possibly-undefined strings are Option String, and JS truthiness of a
  string s is the test s is neither undefined nor empty;
* JS objects used as string-keyed maps are modelled either as
  association lists (when the source iterates over entries) or as
  functions String to Option value (when the source only indexes);
* network reads are modelled by passing the sequence of responses (or a
  query function) as an explicit argument; logging is ignored.
-/

namespace BankImporter

/-- JS string interpolation of a possibly-undefined value: template
literals render undefined as the string "undefined". -/
def jsStr : Option String → String
  | some s => s
  | none => "undefined"

/-- JS truthiness of a possibly-undefined string: false for undefined
and for the empty string. -/
def strTruthy : Option String → Bool
  | some s => decide (s ≠ "")
  | none => false

/-- JS a or b on possibly-undefined strings: returns a when a is
truthy, otherwise b. -/
def jsOrOpt (a b : Option String) : Option String :=
  if strTruthy a then a else b

/-! ## Transfer pair matcher (src/importer/transfer-detector.ts)

Transaction mirrors the Transaction interface of
transfer-detector.ts.  The amount field is an Option so that a record
with amount undefined (rejected by the validity filter) is
representable; external_id is a plain String where the empty string
models a missing/empty id (both are falsy in JS and are treated
identically by every use site). -/

structure Transaction where
  type : String
  date : Option Int
  amount : Option ℚ
  description : Option String
  notes : Option String
  source_id : Option String
  destination_id : Option String
  external_id : String
  currency_code : Option String
  category_name : Option String
  internal_reference : Option String
  tags : List String
  process_date : Option Int
  deriving DecidableEq, Repr

/-- ExistingTransfer interface of transfer-detector.ts: a transfer
already present in the ledger, as fetched from Firefly. -/
structure ExistingTransfer where
  id : Option String
  type : String
  date : Option Int
  amount : ℚ
  source_id : Option String
  destination_id : Option String
  external_id : Option String
  deriving DecidableEq, Repr

/-- DuplicatePair interface: a matched deposit/withdrawal pair that is
already reconciled by an existing ledger transfer. -/
structure DuplicatePair where
  deposit : Transaction
  withdrawal : Transaction
  existingTransfer : ExistingTransfer
  deriving DecidableEq, Repr

/-- ExtendedConversionResult of detectAndConvertTransfers. -/
structure ExtendedConversionResult where
  transfers : List Transaction
  duplicatesOfExisting : List DuplicatePair
  remaining : List Transaction
  all : List Transaction
  deriving DecidableEq, Repr

/-- Validity filter of detectAndConvertTransfers (line 677): a
transaction must have truthy date, type and external_id and a defined
amount. -/
def isValidTx (tx : Transaction) : Bool :=
  tx.date.isSome && decide (tx.type ≠ "") && tx.amount.isSome &&
    decide (tx.external_id ≠ "")

/-- Comparator of the date sort (line 702) read as a le relation:
cmp a b is le exactly when the JS comparator returns at most 0, and the
comparator returns 0 whenever either date is invalid. -/
def dateLe (a b : Transaction) : Bool :=
  match a.date, b.date with
  | some x, some y => decide (x ≤ y)
  | _, _ => true

/-- Stable insertion used to model the stable JS Array sort. -/
def sortedInsert (x : Transaction) : List Transaction → List Transaction
  | [] => [x]
  | y :: ys => if dateLe x y then x :: y :: ys else y :: sortedInsert x ys

/-- Stable sort by date ascending (line 702).  On inputs whose dates
are all valid this is the unique stable sort prescribed by ECMAScript;
on invalid dates the JS comparator is inconsistent and the engine
order is implementation defined, so any fixed stable algorithm is a
faithful model. -/
def sortByDate : List Transaction → List Transaction
  | [] => []
  | x :: xs => sortedInsert x (sortByDate xs)

/-- Predicate of the withdrawal scan (lines 729-771): a withdrawal w is
eligible for deposit d when it is unprocessed, both dates are valid and
at most dateTolerance days apart, the amounts differ by at most 0.01,
and the deposit destination differs from the withdrawal source (two
undefined ids compare equal, as JS undefined === undefined). -/
def isEligible (dateTolerance : Int) (processed : List String)
    (d w : Transaction) : Bool :=
  if w.external_id ∈ processed then false
  else
    match d.date, w.date with
    | some dd, some wd =>
      if |dd - wd| > dateTolerance then false
      else if |d.amount.getD 0 - w.amount.getD 0| > 1 / 100 then false
      else if d.destination_id = w.source_id then false
      else true
    | _, _ => false

/-- Predicate of findMatchingExistingTransfer (lines 609-656). -/
def existingReconciles (dateTolerance : Int) (d w : Transaction)
    (t : ExistingTransfer) : Bool :=
  if |t.amount - d.amount.getD 0| > 1 / 100 then false
  else if ¬(t.source_id = w.source_id ∧ t.destination_id = d.destination_id)
    then false
  else
    match t.date, d.date, w.date with
    | some td, some dd, some wd =>
      decide (|td - dd| ≤ dateTolerance ∧ |td - wd| ≤ dateTolerance)
    | _, _, _ => false

/-- findMatchingExistingTransfer (lines 609-656): first existing
transfer reconciling the pair. -/
def findMatchingExistingTransfer (d w : Transaction)
    (existingTransfers : List ExistingTransfer) (dateTolerance : Int) :
    Option ExistingTransfer :=
  existingTransfers.find? (existingReconciles dateTolerance d w)

/-- combineTransferTags (lines 938-954): withdrawal tags then deposit
tags, first occurrence kept (JS Set insertion order).  A JS undefined
result (empty set) and an empty list are merged into the empty list. -/
def combineTransferTags (withdrawal deposit : Transaction) : List String :=
  (withdrawal.tags ++ deposit.tags).dedup

/-- createTransferTransaction (lines 896-933). -/
def createTransferTransaction (deposit withdrawal : Transaction) :
    Transaction :=
  let transferExternalId :=
    "transfer_" ++ withdrawal.external_id ++ "_" ++ deposit.external_id
  let description :=
    if strTruthy deposit.description ∧ deposit.description ≠ withdrawal.description
    then some (jsStr withdrawal.description ++ " â†’ " ++ jsStr deposit.description)
    else withdrawal.description
  let notes0 := if strTruthy withdrawal.notes then jsStr withdrawal.notes else ""
  let notes1 :=
    if strTruthy deposit.notes ∧ deposit.notes ≠ withdrawal.notes
    then (if notes0 ≠ "" then notes0 ++ "\n---\n" ++ jsStr deposit.notes
          else jsStr deposit.notes)
    else notes0
  { type := "transfer"
    date := withdrawal.date
    amount := deposit.amount
    description := description
    notes := if notes1 = "" then none else some notes1
    source_id := withdrawal.source_id
    destination_id := deposit.destination_id
    external_id := transferExternalId
    currency_code := jsOrOpt deposit.currency_code withdrawal.currency_code
    category_name := none
    internal_reference :=
      some ((if strTruthy withdrawal.internal_reference
             then jsStr withdrawal.internal_reference else "") ++ "_" ++
            (if strTruthy deposit.internal_reference
             then jsStr deposit.internal_reference else ""))
    tags := combineTransferTags withdrawal deposit
    process_date := none }

/-- Mutable state of the deposits.forEach matching loop of
detectAndConvertTransfers (lines 717-847). -/
structure ScanState where
  transfers : List Transaction
  duplicates : List DuplicatePair
  processed : List String
  deriving DecidableEq, Repr

/-- One iteration of the deposits.forEach loop (lines 723-847): skip an
already-processed deposit, find the first eligible withdrawal in list
order, then classify the pair as duplicate-of-existing or synthesize a
new transfer, marking both external ids processed. -/
def depositStep (dateTolerance : Int) (existing : List ExistingTransfer)
    (withdrawals : List Transaction) (st : ScanState) (d : Transaction) :
    ScanState :=
  if d.external_id ∈ st.processed then st
  else
    match withdrawals.find? (isEligible dateTolerance st.processed d) with
    | none => st
    | some w =>
      match findMatchingExistingTransfer d w existing dateTolerance with
      | some t =>
        { transfers := st.transfers
          duplicates := st.duplicates ++ [⟨d, w, t⟩]
          processed := st.processed ++ [d.external_id, w.external_id] }
      | none =>
        { transfers := st.transfers ++ [createTransferTransaction d w]
          duplicates := st.duplicates
          processed := st.processed ++ [d.external_id, w.external_id] }

/-- Valid transactions in original order (line 677). -/
def validTxsOf (transactions : List Transaction) : List Transaction :=
  transactions.filter isValidTx

/-- Valid transactions sorted by date (line 702). -/
def sortedTxsOf (transactions : List Transaction) : List Transaction :=
  sortByDate (validTxsOf transactions)

/-- Deposits of the sorted valid input (line 714). -/
def depositsOf (transactions : List Transaction) : List Transaction :=
  (sortedTxsOf transactions).filter (fun tx => decide (tx.type = "deposit"))

/-- Withdrawals of the sorted valid input (line 715). -/
def withdrawalsOf (transactions : List Transaction) : List Transaction :=
  (sortedTxsOf transactions).filter
    (fun tx => decide (tx.type = "withdrawal"))

/-- detectAndConvertTransfers (lines 662-891).  Records kept in
remaining are the input records, in input order, that have a truthy
external_id not marked processed (lines 849-854). -/
def detectAndConvertTransfers (transactions : List Transaction)
    (dateTolerance : Int) (existingTransfers : List ExistingTransfer) :
    ExtendedConversionResult :=
  let st := (depositsOf transactions).foldl
    (depositStep dateTolerance existingTransfers
      (withdrawalsOf transactions)) ⟨[], [], []⟩
  let remaining := transactions.filter
    (fun tx => decide (tx.external_id ≠ "") &&
      !(decide (tx.external_id ∈ st.processed)))
  { transfers := st.transfers
    duplicatesOfExisting := st.duplicates
    remaining := remaining
    all := st.transfers ++ remaining }

/-! ## Ghost view of the matching scan

The loop above is also described through the list of matched pairs it
selects.  Pair selection depends only on the processed set, never on
the classification of earlier pairs, so this view is independent of the
existing-transfer snapshot; the bridge lemma below relates the two. -/

/-- Ghost step: record the matched pair and the processed ids, without
classifying the pair. -/
def pairStep (dateTolerance : Int) (withdrawals : List Transaction)
    (g : List (Transaction × Transaction) × List String) (d : Transaction) :
    List (Transaction × Transaction) × List String :=
  if d.external_id ∈ g.2 then g
  else
    match withdrawals.find? (isEligible dateTolerance g.2 d) with
    | none => g
    | some w => (g.1 ++ [(d, w)], g.2 ++ [d.external_id, w.external_id])

/-- Pairs matched by the scan, in match order. -/
def scanPairs (dateTolerance : Int) (transactions : List Transaction) :
    List (Transaction × Transaction) :=
  ((depositsOf transactions).foldl
    (pairStep dateTolerance (withdrawalsOf transactions)) ([], [])).1

/-- External ids marked processed by the scan. -/
def processedIds (dateTolerance : Int) (transactions : List Transaction) :
    List String :=
  ((depositsOf transactions).foldl
    (pairStep dateTolerance (withdrawalsOf transactions)) ([], [])).2

/-- Whether some existing ledger transfer reconciles the pair. -/
def pairHasExisting (dateTolerance : Int) (existing : List ExistingTransfer)
    (p : Transaction × Transaction) : Bool :=
  (findMatchingExistingTransfer p.1 p.2 existing dateTolerance).isSome

/-- Transfers synthesized for the matched pairs not reconciled by an
existing transfer. -/
def mkTransfers (dateTolerance : Int) (existing : List ExistingTransfer)
    (pairs : List (Transaction × Transaction)) : List Transaction :=
  (pairs.filter (fun p => !pairHasExisting dateTolerance existing p)).map
    (fun p => createTransferTransaction p.1 p.2)

/-- Duplicate records produced for the matched pairs reconciled by an
existing transfer. -/
def mkDuplicates (dateTolerance : Int) (existing : List ExistingTransfer)
    (pairs : List (Transaction × Transaction)) : List DuplicatePair :=
  pairs.filterMap (fun p =>
    (findMatchingExistingTransfer p.1 p.2 existing dateTolerance).map
      (fun t => ⟨p.1, p.2, t⟩))

/-! ## Credit card payment conversion (transfer-detector.ts lines 64-182) -/

/-- Account interface of transfer-detector.ts. -/
structure Account where
  id : String
  kind : String
  type : String
  deriving DecidableEq, Repr

/-- ConversionResult interface. -/
structure ConversionResult where
  transfers : List Transaction
  remaining : List Transaction
  all : List Transaction
  deriving DecidableEq, Repr

/-- JS String.slice with argument -4: the last four characters, or the
whole string when shorter. -/
def lastFour (s : String) : String :=
  ⟨s.data.drop (s.data.length - 4)⟩

/-- Entries written into ccAccountMap (lines 79-87): for each
credit-card account, its last-4 key then its full-number key, in
accountsMap entry order.  Later writes overwrite earlier ones, which
lookupLast reproduces. -/
def ccAccountEntries (accountsMap : List (String × Account)) :
    List (String × String) :=
  accountsMap.foldl (fun m e =>
    if e.2.kind = "credit-card" then m ++ [(lastFour e.1, e.2.id), (e.1, e.2.id)]
    else m) []

/-- Lookup in a JS object built by repeated assignment: the last write
to the key wins. -/
def lookupLast (entries : List (String × String)) (k : String) :
    Option String :=
  (entries.reverse.find? (fun e => decide (e.1 = k))).map (·.2)

/-- Credit card account id resolved for a withdrawal's internal
reference (line 119): full reference first, then its last four
characters. -/
def ccAccountIdFor (ccEntries : List (String × String)) (tx : Transaction) :
    Option String :=
  jsOrOpt (lookupLast ccEntries (jsStr tx.internal_reference))
    (lookupLast ccEntries (lastFour (jsStr tx.internal_reference)))

/-- Converted credit card payment (lines 123-131). -/
def ccPaymentTransfer (ccEntries : List (String × String))
    (tx : Transaction) : Transaction :=
  { tx with
      type := "transfer"
      destination_id := ccAccountIdFor ccEntries tx
      description := jsOrOpt tx.description (some "Credit card payment")
      notes := some (if strTruthy tx.notes
        then jsStr tx.notes ++ "\nCredit Card Payment (auto-detected)"
        else "Credit Card Payment (auto-detected)") }

/-- Body of the transactions.forEach of convertCreditCardPayments
(lines 101-149). -/
def ccPaymentStep (ccEntries : List (String × String))
    (acc : List Transaction × List Transaction) (tx : Transaction) :
    List Transaction × List Transaction :=
  if tx.type ≠ "withdrawal" then (acc.1, acc.2 ++ [tx])
  else if ¬ strTruthy tx.internal_reference then (acc.1, acc.2 ++ [tx])
  else if strTruthy (ccAccountIdFor ccEntries tx) then
    (acc.1 ++ [ccPaymentTransfer ccEntries tx], acc.2)
  else (acc.1, acc.2 ++ [tx])

/-- convertCreditCardPayments (lines 64-182).  The accountsMap argument
is an Option to mirror the undefined check of line 68. -/
def convertCreditCardPayments (transactions : List Transaction)
    (accountsMap : Option (List (String × Account))) : ConversionResult :=
  match accountsMap with
  | none => ⟨[], transactions, transactions⟩
  | some entries =>
    let ccEntries := ccAccountEntries entries
    let acc := transactions.foldl (ccPaymentStep ccEntries) ([], [])
    ⟨acc.1, acc.2, acc.1 ++ acc.2⟩

/-! ## Reconciliation planner (src/importer/scrapper.ts doImport, lines 529-878)

The planner part of doImport is pure once the scrape output (the
prepared transaction list), the accounts map, the existing-transfer
snapshot and the existing-ledger index are given as arguments. -/

/-- ExistingTransaction interface of scrapper.ts: the value stored in
the external-id index of the ledger snapshot. -/
structure LedgerIndexEntry where
  id : String
  type : String
  source_id : Option String
  destination_id : Option String
  description : Option String
  deriving DecidableEq, Repr

/-- Duplicate removal by external_id keeping the first occurrence
(lines 734-741). -/
def dedupeStep (acc : List Transaction × List String) (tx : Transaction) :
    List Transaction × List String :=
  if tx.external_id ∈ acc.2 then acc
  else (acc.1 ++ [tx], acc.2 ++ [tx.external_id])

/-- Deduplicated transaction list (lines 734-741). -/
def dedupeByExternalId (txs : List Transaction) : List Transaction :=
  (txs.foldl dedupeStep ([], [])).1

/-- Transfer detection stage of doImport: credit card payment
conversion (line 647) followed by deposit/withdrawal pair detection on
the remainder (line 699). -/
def pipelineDetected (txs : List Transaction)
    (accountsMap : List (String × Account)) (dateTolerance : Int)
    (existingTransfers : List ExistingTransfer) : ExtendedConversionResult :=
  detectAndConvertTransfers
    (convertCreditCardPayments txs (some accountsMap)).remaining
    dateTolerance existingTransfers

/-- Combined and deduplicated transaction list of doImport (lines
728-741): credit card payment transfers, then the all list of the pair
detector. -/
def pipelineDeduplicated (txs : List Transaction)
    (accountsMap : List (String × Account)) (dateTolerance : Int)
    (existingTransfers : List ExistingTransfer) : List Transaction :=
  dedupeByExternalId
    ((convertCreditCardPayments txs (some accountsMap)).transfers ++
      (pipelineDetected txs accountsMap dateTolerance existingTransfers).all)

/-- Predicate of toAddDestination (lines 801-813). -/
def needsDestination (existing : LedgerIndexEntry) (x : Transaction) : Bool :=
  decide (existing.type = "withdrawal") && decide (x.type = "withdrawal") &&
    strTruthy x.destination_id && !(strTruthy existing.destination_id) &&
    decide (x.source_id = existing.source_id)

/-- Reconciliation plan computed by doImport against the ledger index
currentTxMap (the JS object is modelled as a lookup function). -/
structure ImportPlan where
  deduplicated : List Transaction
  toCreate : List Transaction
  toTypeUpdate : List Transaction
  toAddDestination : List Transaction
  toFieldUpdate : List Transaction
  deriving Repr

/-- Plan computation of doImport (lines 728-860): toCreate holds ids
absent from the index (line 757), toTypeUpdate ids present with a
different stored type (line 776), toAddDestination withdrawals gaining
a destination (line 801), and toFieldUpdate the remaining same-type
matches, computed only when skipEdit is false (line 836). -/
def computePlan (txs : List Transaction)
    (accountsMap : List (String × Account)) (dateTolerance : Int)
    (existingTransfers : List ExistingTransfer)
    (currentTxMap : String → Option LedgerIndexEntry) (skipEdit : Bool) :
    ImportPlan :=
  let dedup := pipelineDeduplicated txs accountsMap dateTolerance
    existingTransfers
  let toAddDestination := dedup.filter (fun x =>
    match currentTxMap x.external_id with
    | none => false
    | some existing => needsDestination existing x)
  { deduplicated := dedup
    toCreate := dedup.filter (fun x => (currentTxMap x.external_id).isNone)
    toTypeUpdate := dedup.filter (fun x =>
      match currentTxMap x.external_id with
      | none => false
      | some existing => decide (existing.type ≠ x.type))
    toAddDestination := toAddDestination
    toFieldUpdate :=
      if skipEdit then []
      else dedup.filter (fun x =>
        (match currentTxMap x.external_id with
         | none => false
         | some existing => decide (existing.type = x.type)) &&
        !(toAddDestination.any (fun dest =>
          decide (dest.external_id = x.external_id)))) }

/-- View of a transaction created in the ledger as an ExistingTransfer
record, as doImport re-reads it on the next run (lines 677-692). -/
def toExisting (id : Option String) (t : Transaction) : ExistingTransfer :=
  { id := id
    type := t.type
    date := t.date
    amount := t.amount.getD 0
    source_id := t.source_id
    destination_id := t.destination_id
    external_id := some t.external_id }

/-! ## Credit card settlement matching (src/importer/credit-cards.ts)

The Firefly tag queries of getTxsByTag are modelled by an explicit
query function tagTxs from an account id and a process day to the list
of first-split transactions returned for the tag accountId_processDate;
a missing first split (transactions empty) is a none element, dropped
by the filter(Boolean) of line 217. -/

/-- First split of a Firefly transaction as used by getTxAmount. -/
structure TagTx where
  type : String
  amount : ℚ
  deriving DecidableEq, Repr

/-- CcDescEntry interface of credit-cards.ts. -/
structure CcDescEntry where
  ids : List String
  method : String
  deriving DecidableEq, Repr

/-- Math.round(q * 100) / 100 of getTxAmount line 219 (JS Math.round
rounds half toward positive infinity, as Mathlib round does). -/
def round2 (q : ℚ) : ℚ := (round (q * 100) : ℚ) / 100

/-- getTxAmount (lines 209-220): sum the first splits of the
transactions tagged accountId_processDate (falling back to the tag of
the previous day when the first query is empty), counting deposits
positively and everything else negatively, rounded to two decimals. -/
def getTxAmount (tagTxs : String → Int → List (Option TagTx))
    (processDate : Int) (accountId : String) : ℚ :=
  let res := tagTxs accountId processDate
  let res := if res.isEmpty then tagTxs accountId (processDate - 1) else res
  let txs := res.filterMap id
  let sum := txs.foldl
    (fun m x => (if x.type = "deposit" then 1 else -1) * x.amount + m) 0
  round2 sum

/-- Body of processByProcessDate once the process date is known to be
present (lines 148-169). -/
def processAtDate (tagTxs : String → Int → List (Option TagTx))
    (tx : Transaction) (ccAccountsIds : List String) (processDate : Int) :
    Option String :=
  if ccAccountsIds.isEmpty then none
  else if ccAccountsIds.length = 1 then
    if getTxAmount tagTxs processDate (ccAccountsIds.headD "") = 0 then none
    else jsOrOpt (ccAccountsIds.head?) none
  else
    match (ccAccountsIds.map (getTxAmount tagTxs processDate)).indexOf?
      ((if tx.type = "deposit" then (1 : ℚ) else -1) * tx.amount.getD 0) with
    | none => none
    | some index => jsOrOpt (ccAccountsIds.get? index) none

/-- processByProcessDate (lines 143-170): nothing without a process
date or candidates; a single candidate is accepted unless its net
tagged amount is zero; with several candidates the first whose net
tagged amount equals the sign-adjusted transaction amount is
selected. -/
def processByProcessDate (tagTxs : String → Int → List (Option TagTx))
    (tx : Transaction) (ccAccountsIds : List String) : Option String :=
  match tx.process_date with
  | none => none
  | some processDate => processAtDate tagTxs tx ccAccountsIds processDate

/-- processByReference (lines 131-141). -/
def processByReference (accountsMap : List (String × Account))
    (tx : Transaction) : Option String :=
  match tx.internal_reference with
  | none => none
  | some accountNumber =>
    if accountNumber = "" then none
    else
      match (accountsMap.reverse.find?
        (fun e => decide (e.1 = accountNumber))).map (·.2) with
      | none => none
      | some account => some account.id

/-- Conversion applied when a billing account is resolved (lines
196-206): a null account id leaves the transaction unchanged, otherwise
it becomes a transfer and the missing account side is filled in. -/
def ccResolved (tx : Transaction) : Option String → Transaction
  | none => tx
  | some aid =>
    { tx with
        type := "transfer"
        source_id := jsOrOpt tx.source_id (some aid)
        destination_id := jsOrOpt tx.destination_id (some aid) }

/-- Dispatch on the configured method entry (lines 186-206): an empty
or unknown method leaves the transaction unchanged, otherwise the
process-date or reference resolver runs and ccResolved applies its
result. -/
def ccApplyEntry (tagTxs : String → Int → List (Option TagTx))
    (accountsMap : List (String × Account)) (tx : Transaction)
    (entry : CcDescEntry) : Transaction :=
  if entry.method = "" then tx
  else if entry.method = "process-date" then
    ccResolved tx (processByProcessDate tagTxs tx entry.ids)
  else if entry.method = "reference" then
    ccResolved tx (processByReference accountsMap tx)
  else tx

/-- Dispatch on the description lookup result (lines 180-195). -/
def ccApplyLookup (tagTxs : String → Int → List (Option TagTx))
    (accountsMap : List (String × Account)) (tx : Transaction) :
    Option CcDescEntry → Transaction
  | none => tx
  | some entry => ccApplyEntry tagTxs accountsMap tx entry

/-- ccTransfer (lines 172-207): reclassify a transaction matching a
configured credit-card description as a transfer to the resolved
account, filling whichever side is missing. -/
def ccTransfer (tagTxs : String → Int → List (Option TagTx))
    (ccDesc : List (String × CcDescEntry))
    (accountsMap : List (String × Account)) (tx : Transaction) :
    Transaction :=
  if tx.type = "transfer" then tx
  else if ¬ strTruthy tx.description then tx
  else ccApplyLookup tagTxs accountsMap tx
    (ccDesc.lookup (jsStr tx.description))

/-! ## Paginated ledger reads (src/firefly.ts paginate, lines 31-101)

The server side is modelled as the finite sequence of responses the
ledger returns for the successive page requests. -/

/-- One page response: an ok page carries its data and whether a next
cursor is present; notFound is an HTTP 404 failure; failure is any
other request error. -/
inductive PageResponse (α : Type) where
  | ok (data : List α) (hasNext : Bool)
  | notFound
  | failure (msg : String)
  deriving DecidableEq, Repr

/-- Accumulating loop of paginate (lines 51-88): a 404 makes the whole
read return the empty list, any other error is propagated, and page
data is concatenated in order until a page has no next cursor.  When
the modelled response sequence is exhausted the accumulated data is
returned, which is only reached on well-formed traces ending in a page
without a next cursor. -/
def paginateGo {α : Type} : List (PageResponse α) → List α →
    Except String (List α)
  | [], acc => .ok acc
  | r :: rest, acc =>
    match r with
    | .notFound => .ok []
    | .failure msg => .error msg
    | .ok data hasNext =>
      if hasNext then paginateGo rest (acc ++ data) else .ok (acc ++ data)

/-- paginate (lines 31-101) over a modelled response sequence. -/
def paginate {α : Type} (responses : List (PageResponse α)) :
    Except String (List α) :=
  paginateGo responses []

/-- Encoding of a clean pagination trace: every page except the last
carries a next cursor, the last does not. -/
def okChain {α : Type} : List (List α) → List (PageResponse α)
  | [] => []
  | [d] => [.ok d false]
  | d :: rest => .ok d true :: okChain rest

/-! ## Last-import state (src/importer/last-import-helper.ts) -/

/-- Credentials interface of last-import-helper.ts. -/
structure Credentials where
  username : Option String
  id : Option String
  userCode : Option String
  deriving DecidableEq, Repr

/-- User interface of last-import-helper.ts. -/
structure User where
  type : String
  credentials : Credentials
  name : Option String
  deriving DecidableEq, Repr

/-- identifyAccountByType record (lines 21-35). -/
def identifyAccountByType (t : String) :
    Option (Credentials → Option String) :=
  if t = "leumi" then some (·.username)
  else if t = "visaCal" then some (·.username)
  else if t = "beinleumi" then some (·.username)
  else if t = "mizrahi" then some (·.username)
  else if t = "massad" then some (·.username)
  else if t = "max" then some (·.username)
  else if t = "amex" then some (·.username)
  else if t = "yahav" then some (·.username)
  else if t = "otsar-hahayal" then some (·.username)
  else if t = "isracard" then some (·.id)
  else if t = "discount" then some (·.id)
  else if t = "beyahad-bishvilha" then some (·.id)
  else if t = "hapoalim" then some (·.userCode)
  else none

/-- getAccountIdentification (lines 37-43): the account type alone when
no identifying function is registered, otherwise type underscore the
identifying credential interpolated JS-style. -/
def getAccountIdentification (user : User) : String :=
  match identifyAccountByType user.type with
  | none => user.type
  | some identifyFn => user.type ++ "_" ++ jsStr (identifyFn user.credentials)

/-- Value stored under the lastImport key: a legacy plain string or a
map from account identification to ISO timestamp (the JS object is
modelled as a lookup function). -/
inductive LastImportValue where
  | strVal (s : String)
  | mapVal (m : String → Option String)

/-- State blob persisted in Firefly: the lastImport entry plus all the
other keys. -/
structure ImporterState where
  lastImport : Option LastImportValue
  rest : String → Option String

/-- getStateWithLastImport (lines 73-87): the current timestamp now is
computed once and is passed explicitly here; a legacy string lastImport
is replaced by a fresh empty map before the per-user writes. -/
def getStateWithLastImport (users : List User) (state : ImporterState)
    (now : String) : ImporterState :=
  let lastState : String → Option String :=
    match state.lastImport with
    | some (.strVal _) => fun _ => none
    | some (.mapVal m) => m
    | none => fun _ => none
  let newLastImport := users.foldl
    (fun m u => fun k =>
      if k = getAccountIdentification u then some now else m k)
    lastState
  { lastImport := some (.mapVal newLastImport), rest := state.rest }

/-! ## CLI parsing (src/index.ts parseCliArgs, lines 36-89) -/

/-- CliOptions interface of index.ts. -/
structure CliOptions where
  dryRun : Option Bool := none
  since : Option String := none
  backfill : Option Bool := none
  dateTolerance : Option Int := none
  cleanup : Option Bool := none
  removeDuplicates : Option Bool := none
  listTransactions : Option Bool := none
  onlyAccounts : Option (List String) := none
  skipEdit : Option Bool := none
  deriving DecidableEq, Repr

/-- Argument loop of parseCliArgs (lines 42-86).  Value-taking flags
consume the following argument.  The help flags exit the process and
are modelled as ending the parse. -/
def parseArgsLoop : List String → CliOptions → CliOptions
  | [], options => options
  | arg :: rest, options =>
    if arg = "--dry-run" then
      parseArgsLoop rest { options with dryRun := some true }
    else if arg = "--since" then
      parseArgsLoop (rest.drop 1) { options with since := rest.head? }
    else if arg = "--backfill" then
      parseArgsLoop rest { options with backfill := some true }
    else if arg = "--date-tolerance" then
      parseArgsLoop (rest.drop 1)
        { options with dateTolerance := ((rest.head?).getD "2").toInt? }
    else if arg = "--cleanup" then
      parseArgsLoop rest { options with cleanup := some true }
    else if arg = "--remove-duplicates" then
      parseArgsLoop rest { options with removeDuplicates := some true }
    else if arg = "--list-transactions" then
      parseArgsLoop rest { options with listTransactions := some true }
    else if arg = "--only-accounts" then
      parseArgsLoop (rest.drop 1)
        { options with onlyAccounts := (rest.head?).map (·.splitOn ",") }
    else if arg = "--skip-edit" then
      parseArgsLoop rest { options with skipEdit := some false }
    else if arg = "--help" ∨ arg = "-h" then options
    else parseArgsLoop rest options
termination_by args _ => args.length
decreasing_by all_goals (simp [List.length_drop]; try omega)

/-- parseCliArgs (lines 36-89): the initial options set skipEdit to
true. -/
def parseCliArgs (args : List String) : CliOptions :=
  parseArgsLoop args { skipEdit := some true }

/-- Wiring of run (index.ts line 149): the skipEdit value handed to
doImport defaults to true when absent. -/
def doImportSkipEdit (options : CliOptions) : Bool :=
  options.skipEdit.getD true

/-! ## External id derivation (src/importer/scrapper.ts lines 1593-1617) -/

/-- ScrappedTransaction together with its resolved account, the input
of getExternalId. -/
structure ScrappedTransaction where
  status : String
  chargedAmount : ℚ
  date : String
  description : Option String
  memo : Option String
  identifier : String
  chargedCurrency : Option String
  originalCurrency : Option String
  processedDate : String
  category : Option String
  account : Account
  deriving DecidableEq, Repr

/-- Result of omitFields (lines 1601-1606): every field of the
transaction except account and category. -/
structure OmittedFields where
  status : String
  chargedAmount : ℚ
  date : String
  description : Option String
  memo : Option String
  identifier : String
  chargedCurrency : Option String
  originalCurrency : Option String
  processedDate : String
  deriving DecidableEq, Repr

/-- omitFields (lines 1601-1606). -/
def omitFields (tx : ScrappedTransaction) : OmittedFields :=
  { status := tx.status
    chargedAmount := tx.chargedAmount
    date := tx.date
    description := tx.description
    memo := tx.memo
    identifier := tx.identifier
    chargedCurrency := tx.chargedCurrency
    originalCurrency := tx.originalCurrency
    processedDate := tx.processedDate }

/-- Getters record (lines 1593-1599): the content-hash strategy is kept
abstract in the hash function over the omitted-field record. -/
def identityGetters (hashFn : OmittedFields → String) (method : String) :
    Option (ScrappedTransaction → String) :=
  if method = "hash" then some (fun x => hashFn (omitFields x))
  else if method = "identifier" then some (fun x => x.identifier)
  else none

/-- Strategy name configured for an account type (line 1611): the map
entry when present and truthy, the identifier default otherwise. -/
def configuredIdentifyMethod (identifyMethodMap : List (String × String))
    (accountType : String) : String :=
  match identifyMethodMap.lookup accountType with
  | some s => if s = "" then "identifier" else s
  | none => "identifier"

/-- getExternalId (lines 1608-1617): the strategy configured for the
account type is looked up in the getters record with a
nullish-coalescing fallback to the identifier getter; only a missing
getter after that fallback would raise the unknown-strategy error. -/
def getExternalId (hashFn : OmittedFields → String)
    (identifyMethodMap : List (String × String)) (tx : ScrappedTransaction) :
    Except String String :=
  match (identityGetters hashFn
      (configuredIdentifyMethod identifyMethodMap tx.account.type)).orElse
    (fun _ => identityGetters hashFn "identifier") with
  | some getter => .ok (getter tx)
  | none => .error ("No getter function found for method: " ++
      configuredIdentifyMethod identifyMethodMap tx.account.type)

/-! ## Properties of the matching scan -/

/-- External ids of a pair list in match order, withdrawal id second as
the loop appends them. -/
def pairExts : List (Transaction × Transaction) → List String
  | [] => []
  | p :: ps => p.1.external_id :: p.2.external_id :: pairExts ps

theorem pairExts_append (l₁ l₂ : List (Transaction × Transaction)) :
    pairExts (l₁ ++ l₂) = pairExts l₁ ++ pairExts l₂ := by
  induction l₁ with
  | nil => rfl
  | cons p ps ih => simp [pairExts, ih]

theorem mkTransfers_nil (tol : Int) (E : List ExistingTransfer) :
    mkTransfers tol E [] = [] := rfl

theorem mkDuplicates_nil (tol : Int) (E : List ExistingTransfer) :
    mkDuplicates tol E [] = [] := rfl

theorem mkTransfers_append_one (tol : Int) (E : List ExistingTransfer)
    (pairs : List (Transaction × Transaction)) (p : Transaction × Transaction) :
    mkTransfers tol E (pairs ++ [p]) =
      mkTransfers tol E pairs ++
        (if pairHasExisting tol E p then []
         else [createTransferTransaction p.1 p.2]) := by
  by_cases h : pairHasExisting tol E p = true <;>
    simp [mkTransfers, List.filter_append, List.filter_cons, h]

theorem mkDuplicates_append_one (tol : Int) (E : List ExistingTransfer)
    (pairs : List (Transaction × Transaction)) (p : Transaction × Transaction) :
    mkDuplicates tol E (pairs ++ [p]) =
      mkDuplicates tol E pairs ++
        (match findMatchingExistingTransfer p.1 p.2 E tol with
         | some t => [⟨p.1, p.2, t⟩]
         | none => []) := by
  cases h : findMatchingExistingTransfer p.1 p.2 E tol <;>
    simp [mkDuplicates, List.filterMap_append, List.filterMap_cons, h]

/-- Bridge between one real scan step and one ghost step: the real
state is determined by the ghost pair list and processed set. -/
theorem depositStep_bridge (tol : Int) (E : List ExistingTransfer)
    (W : List Transaction) (d : Transaction)
    (g : List (Transaction × Transaction) × List String) :
    depositStep tol E W ⟨mkTransfers tol E g.1, mkDuplicates tol E g.1, g.2⟩ d =
      ⟨mkTransfers tol E (pairStep tol W g d).1,
        mkDuplicates tol E (pairStep tol W g d).1, (pairStep tol W g d).2⟩ := by
  unfold depositStep pairStep
  by_cases h : d.external_id ∈ g.2
  · simp [h]
  · simp only [h, if_false, ite_false]
    cases hfind : W.find? (isEligible tol g.2 d) with
    | none => simp
    | some w =>
      simp only
      cases hex : findMatchingExistingTransfer d w E tol with
      | none =>
        simp [mkTransfers_append_one, mkDuplicates_append_one, hex,
          pairHasExisting]
      | some t =>
        simp [mkTransfers_append_one, mkDuplicates_append_one, hex,
          pairHasExisting]

/-- Bridge between the full real scan and the full ghost scan. -/
theorem foldl_depositStep_bridge (tol : Int) (E : List ExistingTransfer)
    (W : List Transaction) (ds : List Transaction)
    (g : List (Transaction × Transaction) × List String) :
    ds.foldl (depositStep tol E W)
        ⟨mkTransfers tol E g.1, mkDuplicates tol E g.1, g.2⟩ =
      ⟨mkTransfers tol E (ds.foldl (pairStep tol W) g).1,
        mkDuplicates tol E (ds.foldl (pairStep tol W) g).1,
        (ds.foldl (pairStep tol W) g).2⟩ := by
  induction ds generalizing g with
  | nil => simp
  | cons d ds ih =>
    simp only [List.foldl_cons]
    rw [depositStep_bridge]
    exact ih _

/-- Characterization of detectAndConvertTransfers through the ghost
scan. -/
theorem detect_spec (txs : List Transaction) (tol : Int)
    (E : List ExistingTransfer) :
    detectAndConvertTransfers txs tol E =
      { transfers := mkTransfers tol E (scanPairs tol txs)
        duplicatesOfExisting := mkDuplicates tol E (scanPairs tol txs)
        remaining := txs.filter (fun tx => decide (tx.external_id ≠ "") &&
          !(decide (tx.external_id ∈ processedIds tol txs)))
        all := mkTransfers tol E (scanPairs tol txs) ++
          txs.filter (fun tx => decide (tx.external_id ≠ "") &&
            !(decide (tx.external_id ∈ processedIds tol txs))) } := by
  unfold detectAndConvertTransfers scanPairs processedIds
  rw [show (⟨[], [], []⟩ : ScanState) =
    ⟨mkTransfers tol E ([], ([] : List String)).1,
      mkDuplicates tol E ([], ([] : List String)).1,
      ([], ([] : List String)).2⟩ from rfl]
  rw [foldl_depositStep_bridge]

/-- Every matched pair consists of a deposit from the deposit list and
a withdrawal from the withdrawal list, eligible at the processed set
current when it was matched. -/
theorem foldl_pairStep_mem (tol : Int) (W : List Transaction)
    (ds : List Transaction)
    (g : List (Transaction × Transaction) × List String)
    (p : Transaction × Transaction)
    (hp : p ∈ (ds.foldl (pairStep tol W) g).1) :
    p ∈ g.1 ∨ (p.1 ∈ ds ∧ p.2 ∈ W ∧
      ∃ proc, isEligible tol proc p.1 p.2 = true) := by
  induction ds generalizing g with
  | nil =>
    simp only [List.foldl_nil] at hp
    exact Or.inl hp
  | cons d ds ih =>
    simp only [List.foldl_cons] at hp
    rcases ih _ hp with h | ⟨h1, h2, h3⟩
    · unfold pairStep at h
      by_cases hmem : d.external_id ∈ g.2
      · simp [hmem] at h
        exact Or.inl h
      · simp only [hmem, if_false, ite_false] at h
        cases hfind : W.find? (isEligible tol g.2 d) with
        | none => rw [hfind] at h; exact Or.inl h
        | some w =>
          rw [hfind] at h
          simp only [List.mem_append, List.mem_singleton] at h
          rcases h with h | h
          · exact Or.inl h
          · right
            refine ⟨by simp [h], ?_, ?_⟩
            · rw [h]; exact List.mem_of_find?_eq_some hfind
            · exact ⟨g.2, by rw [h]; exact List.find?_some hfind⟩
    · exact Or.inr ⟨List.mem_cons_of_mem _ h1, h2, h3⟩

/-- Membership form of the previous lemma for scanPairs. -/
theorem mem_scanPairs (tol : Int) (txs : List Transaction)
    (p : Transaction × Transaction) (hp : p ∈ scanPairs tol txs) :
    p.1 ∈ depositsOf txs ∧ p.2 ∈ withdrawalsOf txs ∧
      ∃ proc, isEligible tol proc p.1 p.2 = true := by
  rcases foldl_pairStep_mem tol (withdrawalsOf txs) (depositsOf txs) ([], [])
    p hp with h | h
  · simp at h
  · exact h

/-- The processed list of the ghost scan is exactly the external ids of
the matched pairs. -/
theorem foldl_pairStep_processed (tol : Int) (W : List Transaction)
    (ds : List Transaction)
    (g : List (Transaction × Transaction) × List String)
    (hg : g.2 = pairExts g.1) :
    (ds.foldl (pairStep tol W) g).2 = pairExts (ds.foldl (pairStep tol W) g).1 := by
  induction ds generalizing g with
  | nil => simpa using hg
  | cons d ds ih =>
    simp only [List.foldl_cons]
    apply ih
    unfold pairStep
    by_cases hmem : d.external_id ∈ g.2
    · rw [if_pos hmem]
      exact hg
    · rw [if_neg hmem]
      cases hfind : W.find? (isEligible tol g.2 d) with
      | none => exact hg
      | some w => simp [pairExts_append, pairExts, hg]

theorem processedIds_eq_pairExts (tol : Int) (txs : List Transaction) :
    processedIds tol txs = pairExts (scanPairs tol txs) := by
  unfold processedIds scanPairs
  exact foldl_pairStep_processed tol (withdrawalsOf txs) (depositsOf txs)
    ([], []) rfl

/-- Membership in a stable insertion. -/
theorem mem_sortedInsert (x y : Transaction) (l : List Transaction) :
    y ∈ sortedInsert x l ↔ y = x ∨ y ∈ l := by
  induction l with
  | nil => simp [sortedInsert]
  | cons z zs ih =>
    unfold sortedInsert
    by_cases h : dateLe x z = true
    · simp [h]
    · rw [if_neg h]
      simp only [List.mem_cons, ih]
      tauto

/-- The date sort permutes membership only. -/
theorem mem_sortByDate (x : Transaction) (l : List Transaction) :
    x ∈ sortByDate l ↔ x ∈ l := by
  induction l with
  | nil => simp [sortByDate]
  | cons z zs ih => simp [sortByDate, mem_sortedInsert, ih]

/-- Deposits of the scan are valid deposit-typed input records. -/
theorem mem_depositsOf (tx : Transaction) (txs : List Transaction)
    (h : tx ∈ depositsOf txs) :
    tx ∈ txs ∧ isValidTx tx = true ∧ tx.type = "deposit" := by
  unfold depositsOf sortedTxsOf validTxsOf at h
  rcases List.mem_filter.mp h with ⟨hs, hty⟩
  rcases List.mem_filter.mp ((mem_sortByDate _ _).mp hs) with ⟨hmem, hval⟩
  exact ⟨hmem, hval, by simpa using hty⟩

/-- Withdrawals of the scan are valid withdrawal-typed input records. -/
theorem mem_withdrawalsOf (tx : Transaction) (txs : List Transaction)
    (h : tx ∈ withdrawalsOf txs) :
    tx ∈ txs ∧ isValidTx tx = true ∧ tx.type = "withdrawal" := by
  unfold withdrawalsOf sortedTxsOf validTxsOf at h
  rcases List.mem_filter.mp h with ⟨hs, hty⟩
  rcases List.mem_filter.mp ((mem_sortByDate _ _).mp hs) with ⟨hmem, hval⟩
  exact ⟨hmem, hval, by simpa using hty⟩

/-- Empty transaction used as a base for concrete examples. -/
def baseTx : Transaction :=
  { type := ""
    date := none
    amount := none
    description := none
    notes := none
    source_id := none
    destination_id := none
    external_id := ""
    currency_code := none
    category_name := none
    internal_reference := none
    tags := []
    process_date := none }

/-- C9: a deposit whose destination id is absent and a withdrawal whose
source id is absent are never matched into a transfer, because the
different-accounts check compares the two ids with strict equality and
two absent ids compare equal.  When every deposit lacks a destination
and every withdrawal lacks a source, no pair is matched at all: no
transfer and no duplicate is produced, and exactly the records with a
truthy external_id stay in remaining. -/
theorem c9_absent_account_ids (tol : Int) (txs : List Transaction)
    (E : List ExistingTransfer)
    (hdep : ∀ tx ∈ txs, tx.type = "deposit" → tx.destination_id = none)
    (hwit : ∀ tx ∈ txs, tx.type = "withdrawal" → tx.source_id = none) :
    (∀ (proc : List String) (d w : Transaction), d.destination_id = none →
      w.source_id = none → isEligible tol proc d w = false) ∧
    scanPairs tol txs = [] ∧
    (detectAndConvertTransfers txs tol E).transfers = [] ∧
    (detectAndConvertTransfers txs tol E).duplicatesOfExisting = [] ∧
    (detectAndConvertTransfers txs tol E).remaining =
      txs.filter (fun tx => decide (tx.external_id ≠ "")) := by
  have elig : ∀ (proc : List String) (d w : Transaction),
      d.destination_id = none → w.source_id = none →
      isEligible tol proc d w = false := by
    intro proc d w hd hw
    unfold isEligible
    split
    · rfl
    · split <;> simp [hd, hw]
  have hpairs : scanPairs tol txs = [] := by
    rw [List.eq_nil_iff_forall_not_mem]
    intro p hp
    rcases mem_scanPairs tol txs p hp with ⟨h1, h2, proc, h3⟩
    rcases mem_depositsOf _ _ h1 with ⟨hm1, _, hty1⟩
    rcases mem_withdrawalsOf _ _ h2 with ⟨hm2, _, hty2⟩
    rw [elig proc p.1 p.2 (hdep _ hm1 hty1) (hwit _ hm2 hty2)] at h3
    cases h3
  refine ⟨elig, hpairs, ?_, ?_, ?_⟩
  · rw [detect_spec, hpairs]; rfl
  · rw [detect_spec, hpairs]; rfl
  · rw [detect_spec]
    simp only
    apply List.filter_congr
    intro tx _
    rw [processedIds_eq_pairExts, hpairs]
    simp [pairExts]

/-- Deposit without a destination id, for the C9 witness. -/
def depositNoDest : Transaction :=
  { baseTx with
      type := "deposit", date := some 0, amount := some 500,
      external_id := "d1" }

/-- Withdrawal without a source id, for the C9 witness. -/
def withdrawalNoSource : Transaction :=
  { baseTx with
      type := "withdrawal", date := some 0, amount := some 500,
      external_id := "w1" }

/-- Witness for C9 at a concrete matching-looking pair that still stays
unmatched because both relevant account ids are absent. -/
theorem c9_absent_account_ids_witness :
    (detectAndConvertTransfers [depositNoDest, withdrawalNoSource]
      2 []).transfers = [] :=
  (c9_absent_account_ids 2 _ [] (by decide) (by decide)).2.2.1

/-- C4: when the scan matches a deposit/withdrawal pair and some
pre-existing ledger transfer reconciles it (amount within 0.01 of the
deposit amount, source equal to the withdrawal source, destination
equal to the deposit destination, date within tolerance of both legs),
the pair is recorded in duplicatesOfExisting and no transfer is
synthesized from this pair: the synthesized transfers are exactly those
of the matched pairs with no reconciling existing transfer, a set this
pair does not belong to. -/
theorem c4_duplicate_suppression (tol : Int) (txs : List Transaction)
    (E : List ExistingTransfer) (d w : Transaction)
    (hpair : (d, w) ∈ scanPairs tol txs)
    (hex : ∃ t ∈ E, existingReconciles tol d w t = true) :
    (∃ t, (⟨d, w, t⟩ : DuplicatePair) ∈
      (detectAndConvertTransfers txs tol E).duplicatesOfExisting) ∧
    (d, w) ∉ (scanPairs tol txs).filter
      (fun p => !pairHasExisting tol E p) ∧
    (detectAndConvertTransfers txs tol E).transfers =
      ((scanPairs tol txs).filter
        (fun p => !pairHasExisting tol E p)).map
        (fun p => createTransferTransaction p.1 p.2) := by
  have hsome : (findMatchingExistingTransfer d w E tol).isSome = true := by
    unfold findMatchingExistingTransfer
    rw [List.find?_isSome]
    rcases hex with ⟨t, ht, hr⟩
    exact ⟨t, ht, hr⟩
  rcases Option.isSome_iff_exists.mp hsome with ⟨t, hfind⟩
  refine ⟨⟨t, ?_⟩, ?_, ?_⟩
  · rw [detect_spec]
    simp only [mkDuplicates]
    exact List.mem_filterMap.mpr ⟨(d, w), hpair, by rw [hfind]; rfl⟩
  · intro hmem
    rcases List.mem_filter.mp hmem with ⟨_, hno⟩
    rw [show pairHasExisting tol E (d, w) = true from hsome] at hno
    cases hno
  · rw [detect_spec]
    rfl

/-- Deposit into account A, shared by the C4 and C2 witnesses. -/
def sampleDeposit : Transaction :=
  { baseTx with
      type := "deposit", date := some 19737, amount := some 500,
      destination_id := some "A", external_id := "d1" }

/-- Withdrawal from account B one day later, shared by the C4 and C2
witnesses. -/
def sampleWithdrawal : Transaction :=
  { baseTx with
      type := "withdrawal", date := some 19738, amount := some 500,
      source_id := some "B", external_id := "w1" }

/-- Existing ledger transfer reconciling the sample pair. -/
def sampleExistingTransfer : ExistingTransfer :=
  { id := some "77"
    type := "transfer"
    date := some 19738
    amount := 500
    source_id := some "B"
    destination_id := some "A"
    external_id := some "transfer_w1_d1" }

/-- Witness for C4: the sample pair with a reconciling existing
transfer produces a duplicate record and no transfer. -/
theorem c4_duplicate_suppression_witness :
    ∃ t, (⟨sampleDeposit, sampleWithdrawal, t⟩ : DuplicatePair) ∈
      (detectAndConvertTransfers [sampleDeposit, sampleWithdrawal] 2
        [sampleExistingTransfer]).duplicatesOfExisting :=
  (c4_duplicate_suppression 2 [sampleDeposit, sampleWithdrawal]
    [sampleExistingTransfer] sampleDeposit sampleWithdrawal
    (by norm_num [scanPairs, depositsOf, withdrawalsOf, sortedTxsOf,
      validTxsOf, sortByDate, sortedInsert, isValidTx, dateLe, pairStep,
      isEligible, sampleDeposit, sampleWithdrawal, baseTx,
      List.find?_cons] <;> decide)
    ⟨sampleExistingTransfer, by simp, by norm_num [existingReconciles,
      sampleDeposit, sampleWithdrawal, sampleExistingTransfer,
      baseTx] <;> decide⟩).1

/-- C2: when the valid input holds exactly one deposit D, the scan
picks the first withdrawal W of the date-sorted withdrawal list that is
eligible for D, eligibility being exactly: valid dates at most
dateTolerance days apart, amounts within 0.01, and deposit destination
different from withdrawal source.  If no existing ledger transfer
reconciles the pair, exactly one transfer is produced, whose
external_id is transfer_W_D, whose date is the withdrawal date, whose
amount is the deposit amount, whose source is the withdrawal source
account and whose destination is the deposit destination account. -/
theorem c2_pairing_correctness (tol : Int) (txs : List Transaction)
    (E : List ExistingTransfer) (D W : Transaction)
    (hdep : depositsOf txs = [D])
    (hfind : (withdrawalsOf txs).find? (isEligible tol [] D) = some W)
    (hnoex : findMatchingExistingTransfer D W E tol = none) :
    (detectAndConvertTransfers txs tol E).transfers =
      [createTransferTransaction D W] ∧
    (createTransferTransaction D W).external_id =
      "transfer_" ++ W.external_id ++ "_" ++ D.external_id ∧
    (createTransferTransaction D W).date = W.date ∧
    (createTransferTransaction D W).amount = D.amount ∧
    (createTransferTransaction D W).source_id = W.source_id ∧
    (createTransferTransaction D W).destination_id = D.destination_id ∧
    (∀ w : Transaction, isEligible tol [] D w = true ↔
      (D.date ≠ none ∧ w.date ≠ none ∧
        |D.date.getD 0 - w.date.getD 0| ≤ tol ∧
        |D.amount.getD 0 - w.amount.getD 0| ≤ 1 / 100 ∧
        D.destination_id ≠ w.source_id)) := by
  have hpairs : scanPairs tol txs = [(D, W)] := by
    unfold scanPairs
    rw [hdep]
    simp only [List.foldl_cons, List.foldl_nil]
    unfold pairStep
    rw [if_neg (List.not_mem_nil _), hfind]
    rfl
  refine ⟨?_, rfl, rfl, rfl, rfl, rfl, ?_⟩
  · rw [detect_spec, hpairs]
    simp only [mkTransfers, pairHasExisting, hnoex, List.filter_cons]
    rfl
  · intro w
    unfold isEligible
    rw [if_neg (List.not_mem_nil _)]
    cases hD : D.date with
    | none => simp
    | some dd =>
      cases hw : w.date with
      | none => simp
      | some wd =>
        simp only [Option.getD_some, ne_eq, Option.some_ne_none,
          not_false_iff, true_and]
        split_ifs with h1 h2 h3
        · simp only [Bool.false_eq_true, false_iff, not_and]
          intro ha _
          exact absurd ha (not_le.mpr h1)
        · simp only [Bool.false_eq_true, false_iff, not_and]
          intro _ ha _
          exact absurd ha (not_le.mpr h2)
        · simp only [Bool.false_eq_true, false_iff, not_and]
          intro _ _ hne
          exact hne h3
        · simp only [true_iff]
          exact ⟨not_lt.mp h1, not_lt.mp h2, h3⟩

/-- Witness for C2 at spec Scenario A: deposit of 500 into A on day d,
withdrawal of 500 from B on day d+1, tolerance 2, empty ledger; one
transfer from B to A dated at the withdrawal date results. -/
theorem c2_pairing_correctness_witness :
    (detectAndConvertTransfers [sampleDeposit, sampleWithdrawal]
      2 []).transfers =
      [createTransferTransaction sampleDeposit sampleWithdrawal] :=
  (c2_pairing_correctness 2 [sampleDeposit, sampleWithdrawal] []
    sampleDeposit sampleWithdrawal
    (by norm_num [depositsOf, withdrawalsOf, sortedTxsOf, validTxsOf,
      sortByDate, sortedInsert, isValidTx, dateLe, sampleDeposit,
      sampleWithdrawal, baseTx] <;> decide)
    (by norm_num [depositsOf, withdrawalsOf, sortedTxsOf, validTxsOf,
      sortByDate, sortedInsert, isValidTx, dateLe, isEligible,
      sampleDeposit, sampleWithdrawal, baseTx, List.find?_cons] <;> decide)
    rfl).1

theorem paginateGo_okChain {α : Type} (pages : List (List α))
    (acc : List α) :
    paginateGo (okChain pages) acc = .ok (acc ++ pages.flatten) := by
  induction pages generalizing acc with
  | nil => simp [okChain, paginateGo]
  | cons d rest ih =>
    cases rest with
    | nil => simp [okChain, paginateGo]
    | cons e rest' =>
      rw [show okChain (d :: e :: rest') = .ok d true :: okChain (e :: rest')
        from rfl]
      simp only [paginateGo, if_pos]
      rw [ih]
      simp [List.flatten]

/-- C8: a paginated ledger read follows the next cursor, concatenating
page data in order until the cursor is null, and returns exactly that
concatenation; a 404 on any page makes the whole read return the empty
list; any other page failure is propagated as an error. -/
theorem c8_pagination_404 {α : Type} :
    (∀ pages : List (List α), paginate (okChain pages) = .ok pages.flatten) ∧
    (∀ (pages : List (List α)) (rest : List (PageResponse α)),
      paginate (pages.map (fun d => PageResponse.ok d true) ++
        PageResponse.notFound :: rest) = .ok []) ∧
    (∀ (pages : List (List α)) (msg : String)
      (rest : List (PageResponse α)),
      paginate (pages.map (fun d => PageResponse.ok d true) ++
        PageResponse.failure msg :: rest) = .error msg) := by
  have go404 : ∀ (pages : List (List α)) (acc : List α)
      (rest : List (PageResponse α)),
      paginateGo (pages.map (fun d => PageResponse.ok d true) ++
        PageResponse.notFound :: rest) acc = .ok [] := by
    intro pages
    induction pages with
    | nil => intro acc rest; rfl
    | cons d ds ih => intro acc rest; simpa [paginateGo] using ih _ rest
  have goFail : ∀ (pages : List (List α)) (acc : List α) (msg : String)
      (rest : List (PageResponse α)),
      paginateGo (pages.map (fun d => PageResponse.ok d true) ++
        PageResponse.failure msg :: rest) acc = .error msg := by
    intro pages
    induction pages with
    | nil => intro acc msg rest; rfl
    | cons d ds ih => intro acc msg rest; simpa [paginateGo] using ih _ msg rest
  exact ⟨fun pages => by simpa [paginate] using paginateGo_okChain pages [],
    fun pages rest => go404 pages [] rest,
    fun pages msg rest => goFail pages [] msg rest⟩

theorem lastImportFold_frame (now : String) (vs : List User)
    (m0 : String → Option String) (k : String)
    (hk : k ∉ vs.map getAccountIdentification) :
    (vs.foldl (fun m u => fun k' =>
      if k' = getAccountIdentification u then some now else m k') m0) k =
      m0 k := by
  induction vs generalizing m0 with
  | nil => rfl
  | cons v vs ih =>
    simp only [List.map_cons, List.mem_cons] at hk
    push_neg at hk
    simp only [List.foldl_cons]
    rw [ih _ hk.2]
    rw [if_neg hk.1]

theorem lastImportFold_write (now : String) (vs : List User)
    (m0 : String → Option String) (k : String)
    (hk : k ∈ vs.map getAccountIdentification) :
    (vs.foldl (fun m u => fun k' =>
      if k' = getAccountIdentification u then some now else m k') m0) k =
      some now := by
  induction vs generalizing m0 with
  | nil => cases hk
  | cons v vs ih =>
    simp only [List.foldl_cons]
    by_cases h : k ∈ vs.map getAccountIdentification
    · exact ih _ h
    · have hk' : k = getAccountIdentification v := by
        simp only [List.map_cons, List.mem_cons] at hk
        tauto
      rw [lastImportFold_frame now vs _ k h, hk', if_pos rfl]

/-- C10: getStateWithLastImport keeps every state key other than
lastImport unchanged, overwrites the lastImport entry of every listed
user with the one common timestamp now, preserves the entries of
accounts not listed, and replaces a legacy plain-string lastImport by a
fresh map before merging. -/
theorem c10_last_import_frame (users : List User) (state : ImporterState)
    (now : String) :
    ∃ m, (getStateWithLastImport users state now).lastImport =
        some (.mapVal m) ∧
      (getStateWithLastImport users state now).rest = state.rest ∧
      (∀ u ∈ users, m (getAccountIdentification u) = some now) ∧
      (∀ k, k ∉ users.map getAccountIdentification →
        m k = match state.lastImport with
          | some (.mapVal m0) => m0 k
          | some (.strVal _) => none
          | none => none) := by
  refine ⟨_, rfl, rfl, ?_, ?_⟩
  · intro u hu
    exact lastImportFold_write now users _ _
      (List.mem_map_of_mem getAccountIdentification hu)
  · intro k hk
    rw [lastImportFold_frame now users _ k hk]
    cases h : state.lastImport with
    | none => rfl
    | some v => cases v <;> rfl

/-- Sample user of type hapoalim, identified by its user code. -/
def sampleUser : User :=
  { type := "hapoalim"
    credentials := { username := none, id := none, userCode := some "u7" }
    name := none }

/-- Witness for C10: one hapoalim user over a legacy string lastImport
state; the user entry holds the fresh timestamp, an unrelated key is
absent, and the other state keys are untouched. -/
theorem c10_last_import_frame_witness :
    ∃ m, (getStateWithLastImport [sampleUser]
        ⟨some (.strVal "2020-01-01"), fun _ => some "other"⟩
        "2024-05-01T00:00:00Z").lastImport = some (.mapVal m) ∧
      m (getAccountIdentification sampleUser) =
        some "2024-05-01T00:00:00Z" ∧
      m "leumi_x" = none := by
  obtain ⟨m, h1, _, h3, h4⟩ := c10_last_import_frame [sampleUser]
    ⟨some (.strVal "2020-01-01"), fun _ => some "other"⟩
    "2024-05-01T00:00:00Z"
  refine ⟨m, h1, h3 sampleUser (by simp), ?_⟩
  rw [h4 "leumi_x" (by decide)]

/-- C7 (amended): external id derivation never fails.  The getters
lookup falls back to the identifier getter via nullish coalescing, so
the unknown-strategy error branch is unreachable: a configured strategy
name other than hash and identifier silently selects the raw-identifier
strategy, the hash strategy returns the content hash over all fields
except account and category, and absent or empty configuration entries
default to the identifier strategy. -/
theorem c7_identity_strategy_total (hashFn : OmittedFields → String)
    (identifyMethodMap : List (String × String)) (tx : ScrappedTransaction) :
    (∀ e : String, getExternalId hashFn identifyMethodMap tx ≠ .error e) ∧
    (identifyMethodMap.lookup tx.account.type = some "hash" →
      getExternalId hashFn identifyMethodMap tx =
        .ok (hashFn (omitFields tx))) ∧
    (∀ m : String, identifyMethodMap.lookup tx.account.type = some m →
      m ≠ "hash" →
      getExternalId hashFn identifyMethodMap tx = .ok tx.identifier) ∧
    (identifyMethodMap.lookup tx.account.type = none →
      getExternalId hashFn identifyMethodMap tx = .ok tx.identifier) := by
  have hok : ∀ method : String,
      (identityGetters hashFn method).orElse
        (fun _ => identityGetters hashFn "identifier") =
      some ((identityGetters hashFn method).getD (fun x => x.identifier)) := by
    intro method
    unfold identityGetters
    by_cases h1 : method = "hash"
    · simp [h1]
    · by_cases h2 : method = "identifier" <;> simp [h1, h2]
  have hgetters : ∀ m : String, m ≠ "hash" →
      (identityGetters hashFn m).getD (fun x => x.identifier) =
        fun x => x.identifier := by
    intro m hm
    unfold identityGetters
    rw [if_neg hm]
    by_cases h2 : m = "identifier"
    · rw [if_pos h2]; rfl
    · rw [if_neg h2]; rfl
  refine ⟨?_, ?_, ?_, ?_⟩
  · intro e
    unfold getExternalId
    rw [hok]
    simp
  · intro hl
    unfold getExternalId
    rw [hok]
    unfold configuredIdentifyMethod
    rw [hl]
    rw [show (match some "hash" with
      | some s => if s = "" then "identifier" else s
      | none => "identifier") = "hash" from rfl]
    simp [identityGetters]
  · intro m hl hm
    unfold getExternalId
    rw [hok]
    unfold configuredIdentifyMethod
    rw [hl]
    rw [show (match some m with
      | some s => if s = "" then "identifier" else s
      | none => "identifier") = if m = "" then "identifier" else m from rfl]
    by_cases hemp : m = ""
    · rw [if_pos hemp, hgetters "identifier" (by decide)]
    · rw [if_neg hemp, hgetters m hm]
  · intro hl
    unfold getExternalId
    rw [hok]
    unfold configuredIdentifyMethod
    rw [hl]
    rw [show (match (none : Option String) with
      | some s => if s = "" then "identifier" else s
      | none => "identifier") = "identifier" from rfl]
    rw [hgetters "identifier" (by decide)]

/-- Scraped transaction for the C7 example, owned by an account of type
acct1. -/
def sampleScrapTx : ScrappedTransaction :=
  { status := "completed"
    chargedAmount := -(125 : ℚ)
    date := "2024-01-15"
    description := some "store"
    memo := none
    identifier := "id-42"
    chargedCurrency := none
    originalCurrency := none
    processedDate := "2024-02-02"
    category := some "food"
    account := { id := "9", kind := "credit-card", type := "acct1" } }

/-- Counterexample to C7 as stated: with the strategy for acct1
configured as the unrecognized name bogus, derivation does not fail
with an unknown-strategy error but silently returns the raw
identifier. -/
theorem c7_identity_strategy_counterexample :
    getExternalId (fun _ => "H") [("acct1", "bogus")] sampleScrapTx =
      .ok "id-42" := rfl

/-- Witness for C7 at concrete inputs: the unrecognized strategy name
falls back to the identifier getter. -/
theorem c7_identity_strategy_total_witness :
    getExternalId (fun _ => "H") [("acct1", "rawdata")] sampleScrapTx =
      .ok "id-42" :=
  (c7_identity_strategy_total (fun _ => "H") [("acct1", "rawdata")]
    sampleScrapTx).2.2.1 "rawdata" rfl (by decide)

/-- Withdrawal already present in the ledger, used to exercise the
toFieldUpdate step for C6. -/
def existingWithdrawal : Transaction :=
  { baseTx with
      type := "withdrawal", date := some 19737, amount := some 40,
      source_id := some "B", external_id := "x1" }

/-- Ledger index holding the same withdrawal under its external id. -/
def existingWithdrawalIndex : String → Option LedgerIndexEntry :=
  fun k =>
    if k = "x1" then
      some { id := "9", type := "withdrawal", source_id := some "B",
             destination_id := none, description := none }
    else none

/-- C6 evidence: the --skip-edit CLI flag sets skipEdit to false while
the default (no flag) is true, and doImport runs the toFieldUpdate step
exactly when skipEdit is false.  Hence passing --skip-edit makes the
in-place update step run (a same-type ledger match is patched), and
omitting it skips the step, the inverse of the documented behavior. -/
theorem c6_skip_edit_flag_inverted :
    (parseCliArgs ["--skip-edit"]).skipEdit = some false ∧
    (parseCliArgs []).skipEdit = some true ∧
    doImportSkipEdit (parseCliArgs ["--skip-edit"]) = false ∧
    (computePlan [existingWithdrawal] [] 2 [] existingWithdrawalIndex
      (doImportSkipEdit (parseCliArgs ["--skip-edit"]))).toFieldUpdate =
      [existingWithdrawal] ∧
    (computePlan [existingWithdrawal] [] 2 [] existingWithdrawalIndex
      (doImportSkipEdit (parseCliArgs []))).toFieldUpdate = [] := by
  have hflag : parseCliArgs ["--skip-edit"] =
      { skipEdit := some false } := by
    simp [parseCliArgs, parseArgsLoop]
  have hnone : parseCliArgs [] = { skipEdit := some true } := by
    simp [parseCliArgs, parseArgsLoop]
  refine ⟨by rw [hflag], by rw [hnone], by rw [hflag]; rfl, ?_, ?_⟩
  · rw [hflag]
    show (computePlan [existingWithdrawal] [] 2 [] existingWithdrawalIndex
      false).toFieldUpdate = [existingWithdrawal]
    decide
  · rw [hnone]
    show (computePlan [existingWithdrawal] [] 2 [] existingWithdrawalIndex
      true).toFieldUpdate = []
    decide

/-- C5 (amended): billing-cycle settlement matching for a withdrawal
whose description maps to credit-card candidates under the
process-date method, with the net settlement amount being getTxAmount:
the tag sum (with previous-day fallback, deposits positive, others
negative) rounded to the nearest 0.01.  A single candidate is accepted
unless its rounded net amount is exactly zero, in which case the
withdrawal passes through unchanged; with several candidates, the first
one whose rounded net amount equals the withdrawal's sign-adjusted
amount (the negated amount) is selected, and when none matches the
withdrawal passes through unchanged. -/
theorem c5_billing_cycle_settlement
    (tagTxs : String → Int → List (Option TagTx))
    (ccDesc : List (String × CcDescEntry))
    (accountsMap : List (String × Account)) (tx : Transaction)
    (desc : String) (ids : List String) (pd : Int)
    (htype : tx.type = "withdrawal") (hdesc : tx.description = some desc)
    (hne : desc ≠ "") (hcc : ccDesc.lookup desc = some ⟨ids, "process-date"⟩)
    (hpd : tx.process_date = some pd) :
    (∀ a : String, ids = [a] → a ≠ "" →
      (getTxAmount tagTxs pd a = 0 →
        ccTransfer tagTxs ccDesc accountsMap tx = tx) ∧
      (getTxAmount tagTxs pd a ≠ 0 →
        ccTransfer tagTxs ccDesc accountsMap tx =
          { tx with
              type := "transfer",
              source_id := jsOrOpt tx.source_id (some a),
              destination_id := jsOrOpt tx.destination_id (some a) })) ∧
    (2 ≤ ids.length →
      ((ids.map (getTxAmount tagTxs pd)).indexOf?
          (-(tx.amount.getD 0)) = none →
        ccTransfer tagTxs ccDesc accountsMap tx = tx) ∧
      (∀ (i : ℕ) (a : String),
        (ids.map (getTxAmount tagTxs pd)).indexOf?
          (-(tx.amount.getD 0)) = some i →
        ids.get? i = some a → a ≠ "" →
        ccTransfer tagTxs ccDesc accountsMap tx =
          { tx with
              type := "transfer",
              source_id := jsOrOpt tx.source_id (some a),
              destination_id := jsOrOpt tx.destination_id (some a) })) := by
  have hpds : processByProcessDate tagTxs tx ids =
      processAtDate tagTxs tx ids pd := by
    unfold processByProcessDate
    rw [hpd]
  have hred : ccTransfer tagTxs ccDesc accountsMap tx =
      ccResolved tx (processAtDate tagTxs tx ids pd) := by
    unfold ccTransfer
    rw [if_neg (by rw [htype]; decide)]
    rw [if_neg (by rw [hdesc]; simp [strTruthy, hne])]
    rw [hdesc]
    rw [show jsStr (some desc) = desc from rfl, hcc]
    rw [show ccApplyLookup tagTxs accountsMap tx
      (some { ids := ids, method := "process-date" }) =
      ccApplyEntry tagTxs accountsMap tx
        { ids := ids, method := "process-date" } from rfl]
    unfold ccApplyEntry
    rw [if_neg (by simp), if_pos (by simp), hpds]
  have hsign : (if tx.type = "deposit" then (1 : ℚ) else -1) *
      tx.amount.getD 0 = -(tx.amount.getD 0) := by
    rw [if_neg (by rw [htype]; decide), neg_one_mul]
  constructor
  · intro a hids ha
    subst hids
    constructor
    · intro hz
      rw [hred]
      unfold processAtDate
      rw [if_neg (by simp), if_pos (by simp)]
      rw [show List.headD [a] "" = a from rfl, hz, if_pos rfl]
      rfl
    · intro hz
      rw [hred]
      unfold processAtDate
      rw [if_neg (by simp), if_pos (by simp)]
      rw [show List.headD [a] "" = a from rfl, if_neg hz]
      rw [show jsOrOpt (List.head? [a]) none = jsOrOpt (some a) none from rfl]
      rw [show jsOrOpt (some a) none =
        (if decide (a ≠ "") = true then some a else none) from rfl]
      rw [if_pos (by simp [ha])]
      rfl
  · intro hlen
    have hne2 : ¬ ids.isEmpty = true := by
      cases ids with
      | nil => simp at hlen
      | cons x xs => simp
    have hne1 : ¬ ids.length = 1 := by omega
    constructor
    · intro hidx
      rw [hred]
      unfold processAtDate
      rw [if_neg hne2, if_neg hne1, hsign, hidx]
      rfl
    · intro i a hidx hget ha
      rw [hred]
      unfold processAtDate
      rw [if_neg hne2, if_neg hne1, hsign, hidx]
      rw [show (match some i with
        | none => (none : Option String)
        | some index => jsOrOpt (ids.get? index) none) =
        jsOrOpt (ids.get? i) none from rfl]
      rw [hget]
      rw [show jsOrOpt (some a) none =
        (if decide (a ≠ "") = true then some a else none) from rfl]
      rw [if_pos (by simp [ha])]
      rfl

/-- Withdrawal settling a credit card bill, for the C5 examples. -/
def settlementWithdrawal : Transaction :=
  { baseTx with
      type := "withdrawal", date := some 19737, amount := some 40,
      source_id := some "B", description := some "cc-settle",
      external_id := "w9", process_date := some 100 }

/-- Description-to-candidates configuration mapping cc-settle to the
single candidate account cc1 under the process-date method. -/
def settlementCcDesc : List (String × CcDescEntry) :=
  [("cc-settle", { ids := ["cc1"], method := "process-date" })]

/-- Tag query answering a single sub-cent withdrawal split of 1/250
(0.004) for the tag of account cc1 at day 100, and nothing else. -/
def subCentTagTxs : String → Int → List (Option TagTx) :=
  fun a d =>
    if a = "cc1" ∧ d = 100 then [some { type := "withdrawal", amount := 1/250 }]
    else []

/-- Counterexample to C5 as stated: the account's net settlement sum is
minus 1/250, not exactly zero, so the claim demands acceptance; but the
code rounds the tag sum to the nearest 0.01, obtaining exactly zero,
and the withdrawal passes through unchanged. -/
theorem c5_billing_cycle_settlement_counterexample :
    ([some ({ type := "withdrawal", amount := (1 : ℚ)/250 } : TagTx)].filterMap
      id).foldl
      (fun m x => (if x.type = "deposit" then (1 : ℚ) else -1) * x.amount + m)
      0 = -(1/250) ∧
    (-(1 : ℚ)/250 ≠ 0) ∧
    getTxAmount subCentTagTxs 100 "cc1" = 0 ∧
    ccTransfer subCentTagTxs settlementCcDesc [] settlementWithdrawal =
      settlementWithdrawal := by
  have hsum : ([some ({ type := "withdrawal", amount := (1 : ℚ)/250 } :
      TagTx)].filterMap id).foldl
      (fun m x => (if x.type = "deposit" then (1 : ℚ) else -1) * x.amount + m)
      0 = -(1/250) := by
    norm_num [List.filterMap, List.foldl,
      eq_false (by decide : ¬("withdrawal" = "deposit"))]
  have hamt : getTxAmount subCentTagTxs 100 "cc1" = 0 := by
    unfold getTxAmount subCentTagTxs
    norm_num [round2, round_eq, List.filterMap, List.foldl,
      eq_false (by decide : ¬("withdrawal" = "deposit"))]
  refine ⟨hsum, by norm_num, hamt, ?_⟩
  have h := (c5_billing_cycle_settlement subCentTagTxs settlementCcDesc []
    settlementWithdrawal "cc-settle" ["cc1"] 100 rfl rfl (by decide) rfl
    rfl).1 "cc1" rfl (by decide)
  exact h.1 hamt

/-- Tag query answering a 40 withdrawal split for account cc1 at day
100, and nothing else. -/
def fortyTagTxs : String → Int → List (Option TagTx) :=
  fun a d =>
    if a = "cc1" ∧ d = 100 then [some { type := "withdrawal", amount := 40 }]
    else []

/-- Witness for C5 (amended): a single candidate with net rounded
amount minus 40 (nonzero) is accepted and the withdrawal becomes a
transfer to cc1. -/
theorem c5_billing_cycle_settlement_witness :
    ccTransfer fortyTagTxs settlementCcDesc [] settlementWithdrawal =
      { settlementWithdrawal with
          type := "transfer",
          source_id := some "B", destination_id := some "cc1" } := by
  have hamt : getTxAmount fortyTagTxs 100 "cc1" = -40 := by
    unfold getTxAmount fortyTagTxs
    norm_num [round2, round_eq, List.filterMap, List.foldl,
      eq_false (by decide : ¬("withdrawal" = "deposit"))]
  have h := ((c5_billing_cycle_settlement fortyTagTxs settlementCcDesc []
    settlementWithdrawal "cc-settle" ["cc1"] 100 rfl rfl (by decide) rfl
    rfl).1 "cc1" rfl (by decide)).2 (by rw [hamt]; norm_num)
  rw [h]
  rfl

theorem mem_pairExts (s : String) (pairs : List (Transaction × Transaction)) :
    s ∈ pairExts pairs ↔
      ∃ p ∈ pairs, s = p.1.external_id ∨ s = p.2.external_id := by
  induction pairs with
  | nil => simp [pairExts]
  | cons p ps ih =>
    simp only [pairExts, List.mem_cons, ih]
    constructor
    · rintro (h | h | ⟨q, hq, hor⟩)
      · exact ⟨p, Or.inl rfl, Or.inl h⟩
      · exact ⟨p, Or.inl rfl, Or.inr h⟩
      · exact ⟨q, Or.inr hq, hor⟩
    · rintro ⟨q, hq | hq, hor⟩
      · subst hq
        rcases hor with h | h
        · exact Or.inl h
        · exact Or.inr (Or.inl h)
      · exact Or.inr (Or.inr ⟨q, hq, hor⟩)

theorem pairExts_filter_perm (q : Transaction × Transaction → Bool)
    (pairs : List (Transaction × Transaction)) :
    (pairExts (pairs.filter (fun p => !q p)) ++
      pairExts (pairs.filter q)).Perm (pairExts pairs) := by
  induction pairs with
  | nil => simp [pairExts]
  | cons p ps ih =>
    by_cases h : q p = true
    · rw [List.filter_cons_of_pos h,
        List.filter_cons_of_neg (by simp [h])]
      simp only [pairExts]
      exact (List.perm_middle.trans
        (List.Perm.cons _ List.perm_middle)).trans ((ih.cons _).cons _)
    · rw [List.filter_cons_of_neg h,
        List.filter_cons_of_pos (by simp [h])]
      simp only [pairExts, List.cons_append]
      exact (ih.cons _).cons _

theorem mkDuplicates_map_eq (tol : Int) (E : List ExistingTransfer)
    (pairs : List (Transaction × Transaction)) :
    (mkDuplicates tol E pairs).map (fun dp => (dp.deposit, dp.withdrawal)) =
      pairs.filter (pairHasExisting tol E) := by
  induction pairs with
  | nil => rfl
  | cons p ps ih =>
    unfold mkDuplicates at ih ⊢
    rw [List.filterMap_cons]
    cases h : findMatchingExistingTransfer p.1 p.2 E tol with
    | none =>
      rw [List.filter_cons_of_neg (by simp [pairHasExisting, h])]
      exact ih
    | some t =>
      rw [List.filter_cons_of_pos (by simp [pairHasExisting, h])]
      simp [ih]

theorem eligible_not_processed (tol : Int) (proc : List String)
    (d w : Transaction) (h : isEligible tol proc d w = true) :
    w.external_id ∉ proc := by
  intro hmem
  unfold isEligible at h
  rw [if_pos hmem] at h
  cases h

theorem foldl_pairStep_nodup (tol : Int) (W : List Transaction)
    (ds : List Transaction)
    (hdw : ∀ d ∈ ds, ∀ w ∈ W, d.external_id ≠ w.external_id)
    (g : List (Transaction × Transaction) × List String) (hg : g.2.Nodup) :
    (ds.foldl (pairStep tol W) g).2.Nodup := by
  induction ds generalizing g with
  | nil => simpa using hg
  | cons d ds ih =>
    simp only [List.foldl_cons]
    refine ih (fun d' hd' w hw => hdw d' (List.mem_cons_of_mem _ hd') w hw) _ ?_
    unfold pairStep
    by_cases hmem : d.external_id ∈ g.2
    · rw [if_pos hmem]; exact hg
    · rw [if_neg hmem]
      cases hfind : W.find? (isEligible tol g.2 d) with
      | none => exact hg
      | some w =>
        have hwne : w.external_id ∉ g.2 :=
          eligible_not_processed tol g.2 d w (List.find?_some hfind)
        have hdwne : d.external_id ≠ w.external_id :=
          hdw d (List.mem_cons_self _ _) w (List.mem_of_find?_eq_some hfind)
        simp only
        rw [List.nodup_append]
        refine ⟨hg, by simp [hdwne], ?_⟩
        intro a ha
        simp only [List.mem_cons, List.mem_singleton, List.not_mem_nil,
          or_false]
        rintro (rfl | rfl)
        · exact hmem ha
        · exact hwne ha

theorem processedIds_nodup (tol : Int) (txs : List Transaction)
    (hnd : (txs.map Transaction.external_id).Nodup) :
    (processedIds tol txs).Nodup := by
  unfold processedIds
  refine foldl_pairStep_nodup tol (withdrawalsOf txs) (depositsOf txs)
    ?_ ([], []) List.nodup_nil
  intro d hd w hw heq
  rcases mem_depositsOf d txs hd with ⟨hd1, _, hd3⟩
  rcases mem_withdrawalsOf w txs hw with ⟨hw1, _, hw3⟩
  have : d = w := List.inj_on_of_nodup_map hnd hd1 hw1 heq
  rw [this, hw3] at hd3
  exact absurd hd3 (by decide)

theorem mem_processedIds (tol : Int) (txs : List Transaction) (s : String)
    (h : s ∈ processedIds tol txs) :
    ∃ tx, tx ∈ txs ∧ isValidTx tx = true ∧ s = tx.external_id := by
  rw [processedIds_eq_pairExts] at h
  rcases (mem_pairExts s _).mp h with ⟨p, hp, hor⟩
  rcases mem_scanPairs tol txs p hp with ⟨h1, h2, -⟩
  rcases mem_depositsOf _ _ h1 with ⟨hm1, hv1, -⟩
  rcases mem_withdrawalsOf _ _ h2 with ⟨hm2, hv2, -⟩
  rcases hor with h | h
  · exact ⟨p.1, hm1, hv1, h⟩
  · exact ⟨p.2, hm2, hv2, h⟩

/-- C3 (amended): when the records entering the matcher carry pairwise
distinct nonempty external ids, every external id is accounted for
exactly once across the three outputs: the synthesized transfers are in
bijection with the matched pairs without a reconciling existing
transfer (each embedding its pair's two external ids in its own
transfer_W_D id), the duplicate records are in bijection with the
matched pairs with one, and the multiset of external ids of transfer
origins, duplicate pairs and remaining records is a permutation of the
input external ids.  A malformed record (missing date, type or amount)
is excluded from matching but retained in remaining.  Records whose
external_id is missing are dropped from remaining entirely, which the
original claim overlooked. -/
theorem c3_accounting_invariant (tol : Int) (txs : List Transaction)
    (E : List ExistingTransfer)
    (hne : ∀ tx ∈ txs, tx.external_id ≠ "")
    (hnd : (txs.map Transaction.external_id).Nodup) :
    (detectAndConvertTransfers txs tol E).transfers =
      ((scanPairs tol txs).filter (fun p => !pairHasExisting tol E p)).map
        (fun p => createTransferTransaction p.1 p.2) ∧
    ((detectAndConvertTransfers txs tol E).duplicatesOfExisting).map
      (fun dp => (dp.deposit, dp.withdrawal)) =
      (scanPairs tol txs).filter (pairHasExisting tol E) ∧
    (pairExts ((scanPairs tol txs).filter
        (fun p => !pairHasExisting tol E p)) ++
      (pairExts ((scanPairs tol txs).filter (pairHasExisting tol E)) ++
        (detectAndConvertTransfers txs tol E).remaining.map
          Transaction.external_id)).Perm
      (txs.map Transaction.external_id) ∧
    (∀ tx ∈ txs, isValidTx tx = false →
      tx ∈ (detectAndConvertTransfers txs tol E).remaining) := by
  have hrem : (detectAndConvertTransfers txs tol E).remaining =
      txs.filter (fun tx => !(decide (tx.external_id ∈ processedIds tol txs))) := by
    rw [detect_spec]
    simp only
    apply List.filter_congr
    intro tx htx
    simp [hne tx htx]
  have hmemrem : ∀ tx : Transaction,
      tx ∈ (detectAndConvertTransfers txs tol E).remaining ↔
      tx ∈ txs ∧ tx.external_id ∉ processedIds tol txs := by
    intro tx
    rw [hrem, List.mem_filter]
    simp
  have h1 : (detectAndConvertTransfers txs tol E).transfers =
      ((scanPairs tol txs).filter (fun p => !pairHasExisting tol E p)).map
        (fun p => createTransferTransaction p.1 p.2) := by
    rw [detect_spec]
    rfl
  have h2 : ((detectAndConvertTransfers txs tol E).duplicatesOfExisting).map
      (fun dp => (dp.deposit, dp.withdrawal)) =
      (scanPairs tol txs).filter (pairHasExisting tol E) := by
    rw [detect_spec]
    exact mkDuplicates_map_eq tol E (scanPairs tol txs)
  refine ⟨h1, h2, ?_, ?_⟩
  · have hsplit := pairExts_filter_perm (pairHasExisting tol E)
      (scanPairs tol txs)
    rw [← List.append_assoc]
    refine ((hsplit.append (List.Perm.refl _)).trans ?_)
    rw [← processedIds_eq_pairExts]
    have hnodupL : (processedIds tol txs ++
        (detectAndConvertTransfers txs tol E).remaining.map
          Transaction.external_id).Nodup := by
      rw [List.nodup_append]
      refine ⟨processedIds_nodup tol txs hnd, ?_, ?_⟩
      · refine List.Nodup.sublist ?_ hnd
        refine List.Sublist.map _ ?_
        rw [hrem]
        exact List.filter_sublist txs
      · intro s hs
        rcases mem_processedIds tol txs s hs with ⟨tx, _, _, rfl⟩
        intro hmem
        rcases List.mem_map.mp hmem with ⟨ty, hty, hexts⟩
        rcases (hmemrem ty).mp hty with ⟨htymem, htynp⟩
        rw [hexts] at htynp
        exact htynp hs
    rw [List.perm_ext_iff_of_nodup hnodupL hnd]
    intro s
    constructor
    · intro hs
      rcases List.mem_append.mp hs with hs | hs
      · rcases mem_processedIds tol txs s hs with ⟨tx, htx, _, rfl⟩
        exact List.mem_map_of_mem _ htx
      · rcases List.mem_map.mp hs with ⟨tx, htx, rfl⟩
        exact List.mem_map_of_mem _ ((hmemrem tx).mp htx).1
    · intro hs
      rcases List.mem_map.mp hs with ⟨tx, htx, rfl⟩
      by_cases hp : tx.external_id ∈ processedIds tol txs
      · exact List.mem_append.mpr (Or.inl hp)
      · refine List.mem_append.mpr (Or.inr ?_)
        exact List.mem_map_of_mem _ ((hmemrem tx).mpr ⟨htx, hp⟩)
  · intro tx htx hbad
    refine (hmemrem tx).mpr ⟨htx, ?_⟩
    intro hmem
    rcases mem_processedIds tol txs _ hmem with ⟨ty, htymem, htyval, hexteq⟩
    have : tx = ty := List.inj_on_of_nodup_map hnd htx htymem hexteq
    rw [this, htyval] at hbad
    cases hbad

/-- Record missing its date, for the C3 witness: excluded from matching
but kept in remaining. -/
def malformedRecord : Transaction :=
  { baseTx with type := "withdrawal", amount := some 3, external_id := "m1" }

/-- Witness for C3: the malformed record (no date) of a concrete input
with distinct nonempty external ids is retained in remaining. -/
theorem c3_accounting_invariant_witness :
    malformedRecord ∈ (detectAndConvertTransfers
      [sampleDeposit, sampleWithdrawal, malformedRecord] 2 []).remaining :=
  (c3_accounting_invariant 2 [sampleDeposit, sampleWithdrawal,
    malformedRecord] [] (by decide) (by decide)).2.2.2 malformedRecord
    (by decide) (by decide)

/-- Counterexample to C3 as stated: a single record whose external_id
is missing (empty) is dropped from every output, so its external id is
not accounted for and the record is not retained in remaining. -/
theorem c3_accounting_invariant_counterexample :
    ([{ baseTx with type := "deposit", date := some 0, amount := some 5 }] :
      List Transaction) ≠ [] ∧
    (detectAndConvertTransfers
      [{ baseTx with type := "deposit", date := some 0, amount := some 5 }]
      2 []).remaining = [] ∧
    (detectAndConvertTransfers
      [{ baseTx with type := "deposit", date := some 0, amount := some 5 }]
      2 []).transfers = [] ∧
    (detectAndConvertTransfers
      [{ baseTx with type := "deposit", date := some 0, amount := some 5 }]
      2 []).duplicatesOfExisting = [] := by
  refine ⟨by decide, ?_, ?_, ?_⟩ <;> decide

theorem eligible_dates (tol : Int) (proc : List String) (d w : Transaction)
    (h : isEligible tol proc d w = true) :
    ∃ dd wd, d.date = some dd ∧ w.date = some wd ∧ |dd - wd| ≤ tol := by
  unfold isEligible at h
  by_cases hmem : w.external_id ∈ proc
  · rw [if_pos hmem] at h
    exact Bool.noConfusion h
  · rw [if_neg hmem] at h
    cases hd : d.date with
    | none =>
      rw [hd] at h
      cases hw : w.date with
      | none => rw [hw] at h; exact Bool.noConfusion h
      | some wd => rw [hw] at h; exact Bool.noConfusion h
    | some dd =>
      rw [hd] at h
      cases hw : w.date with
      | none => rw [hw] at h; exact Bool.noConfusion h
      | some wd =>
        rw [hw] at h
        have h' : (if |dd - wd| > tol then false
          else if |d.amount.getD 0 - w.amount.getD 0| > 1 / 100 then false
          else if d.destination_id = w.source_id then false else true) =
            true := h
        by_cases h1 : |dd - wd| > tol
        · rw [if_pos h1] at h'
          exact Bool.noConfusion h'
        · exact ⟨dd, wd, rfl, rfl, not_lt.mp h1⟩

/-- A transfer synthesized from a matched pair, read back from the
ledger, reconciles its own pair. -/
theorem createTransfer_reconciles (tol : Int) (d w : Transaction)
    (i : Option String) (proc : List String)
    (h : isEligible tol proc d w = true) :
    existingReconciles tol d w
      (toExisting i (createTransferTransaction d w)) = true := by
  obtain ⟨dd, wd, hd, hw, hle⟩ := eligible_dates tol proc d w h
  have htol : (0 : Int) ≤ tol := le_trans (abs_nonneg _) hle
  unfold existingReconciles
  rw [show (toExisting i (createTransferTransaction d w)).amount =
    d.amount.getD 0 from rfl]
  rw [show (toExisting i (createTransferTransaction d w)).source_id =
    w.source_id from rfl]
  rw [show (toExisting i (createTransferTransaction d w)).destination_id =
    d.destination_id from rfl]
  rw [show (toExisting i (createTransferTransaction d w)).date =
    w.date from rfl]
  rw [if_neg (by simp)]
  rw [if_neg (by simp)]
  rw [hw, hd]
  simp only [decide_eq_true_eq]
  refine ⟨?_, ?_⟩
  · rw [abs_sub_comm]
    exact hle
  · simpa using htol

theorem ccPaymentStep_fst (cc : List (String × String))
    (acc : List Transaction × List Transaction) (tx : Transaction) :
    (ccPaymentStep cc acc tx).1 = acc.1 ∨
      ∃ y, (ccPaymentStep cc acc tx).1 = acc.1 ++ [y] ∧
        y.external_id = tx.external_id := by
  unfold ccPaymentStep
  split_ifs <;> first
    | exact Or.inl rfl
    | exact Or.inr ⟨_, rfl, rfl⟩

theorem ccPaymentStep_snd (cc : List (String × String))
    (acc : List Transaction × List Transaction) (tx : Transaction) :
    (ccPaymentStep cc acc tx).2 = acc.2 ∨
      (ccPaymentStep cc acc tx).2 = acc.2 ++ [tx] := by
  unfold ccPaymentStep
  split_ifs <;> first
    | exact Or.inl rfl
    | exact Or.inr rfl

theorem cc_foldl_fst (cc : List (String × String)) (l : List Transaction)
    (acc : List Transaction × List Transaction) (x : Transaction)
    (hx : x ∈ (l.foldl (ccPaymentStep cc) acc).1) :
    x ∈ acc.1 ∨ ∃ tx ∈ l, x.external_id = tx.external_id := by
  induction l generalizing acc with
  | nil =>
    simp only [List.foldl_nil] at hx
    exact Or.inl hx
  | cons tx l ih =>
    simp only [List.foldl_cons] at hx
    rcases ih _ hx with h | ⟨ty, hty, hext⟩
    · rcases ccPaymentStep_fst cc acc tx with hstep | ⟨y, hstep, hyext⟩
      · rw [hstep] at h
        exact Or.inl h
      · rw [hstep] at h
        rcases List.mem_append.mp h with h | h
        · exact Or.inl h
        · refine Or.inr ⟨tx, List.mem_cons_self _ _, ?_⟩
          rw [List.mem_singleton.mp h, hyext]
    · exact Or.inr ⟨ty, List.mem_cons_of_mem _ hty, hext⟩

theorem cc_foldl_snd (cc : List (String × String)) (l : List Transaction)
    (acc : List Transaction × List Transaction) (x : Transaction)
    (hx : x ∈ (l.foldl (ccPaymentStep cc) acc).2) :
    x ∈ acc.2 ∨ x ∈ l := by
  induction l generalizing acc with
  | nil =>
    simp only [List.foldl_nil] at hx
    exact Or.inl hx
  | cons tx l ih =>
    simp only [List.foldl_cons] at hx
    rcases ih _ hx with h | h
    · rcases ccPaymentStep_snd cc acc tx with hstep | hstep
      · rw [hstep] at h
        exact Or.inl h
      · rw [hstep] at h
        rcases List.mem_append.mp h with h | h
        · exact Or.inl h
        · exact Or.inr (by simp [List.mem_singleton.mp h])
    · exact Or.inr (List.mem_cons_of_mem _ h)

theorem ccPayments_transfers_ext (txs : List Transaction)
    (entries : List (String × Account)) (x : Transaction)
    (hx : x ∈ (convertCreditCardPayments txs (some entries)).transfers) :
    ∃ tx ∈ txs, x.external_id = tx.external_id := by
  unfold convertCreditCardPayments at hx
  rcases cc_foldl_fst _ txs ([], []) x hx with h | h
  · simp at h
  · exact h

theorem ccPayments_remaining_mem (txs : List Transaction)
    (entries : List (String × Account)) (x : Transaction)
    (hx : x ∈ (convertCreditCardPayments txs (some entries)).remaining) :
    x ∈ txs := by
  unfold convertCreditCardPayments at hx
  rcases cc_foldl_snd _ txs ([], []) x hx with h | h
  · simp at h
  · exact h

theorem dedupe_foldl_mem (l : List Transaction)
    (acc : List Transaction × List String)
    (hinv : acc.2 = acc.1.map Transaction.external_id) (x : Transaction) :
    x ∈ (l.foldl dedupeStep acc).1 ↔
      x ∈ acc.1 ∨ (x.external_id ∉ acc.2 ∧
        l.find? (fun y => decide (y.external_id = x.external_id)) = some x) := by
  induction l generalizing acc with
  | nil => simp
  | cons y l ih =>
    simp only [List.foldl_cons]
    rw [show dedupeStep acc y = (if y.external_id ∈ acc.2 then acc
      else (acc.1 ++ [y], acc.2 ++ [y.external_id])) from rfl]
    by_cases hy : y.external_id ∈ acc.2
    · rw [if_pos hy, ih acc hinv]
      by_cases hyx : y.external_id = x.external_id
      · have hxin : ¬ x.external_id ∉ acc.2 := by rw [← hyx]; simp [hy]
        simp [hxin]
      · rw [List.find?_cons_of_neg _ (by simp [hyx])]
    · rw [if_neg hy]
      rw [ih (acc.1 ++ [y], acc.2 ++ [y.external_id])
        (by simp [hinv, List.map_append])]
      by_cases hyx : y.external_id = x.external_id
      · rw [List.find?_cons_of_pos _ (by simp [hyx])]
        simp only [List.mem_append, List.mem_singleton]
        constructor
        · rintro (⟨h | h⟩ | ⟨hnm, hfind⟩)
          · exact Or.inl h
          · subst h
            exact Or.inr ⟨by rw [← hyx]; exact hy, rfl⟩
          · exfalso
            apply hnm
            rw [← hyx]
            simp
        · rintro (h | ⟨hnm, hfind⟩)
          · exact Or.inl (Or.inl h)
          · exact Or.inl (Or.inr (Option.some_inj.mp hfind).symm)
      · rw [List.find?_cons_of_neg _ (by simp [hyx])]
        simp only [List.mem_append, List.mem_singleton]
        constructor
        · rintro (⟨h | h⟩ | ⟨hnm, hfind⟩)
          · exact Or.inl h
          · exfalso
            subst h
            exact hyx rfl
          · refine Or.inr ⟨?_, hfind⟩
            intro hmem
            exact hnm (Or.inl hmem)
        · rintro (h | ⟨hnm, hfind⟩)
          · exact Or.inl (Or.inl h)
          · refine Or.inr ⟨?_, hfind⟩
            rintro (hmem | hmem)
            · exact hnm hmem
            · exact hyx hmem.symm

theorem mem_dedupeByExternalId (l : List Transaction) (x : Transaction) :
    x ∈ dedupeByExternalId l ↔
      l.find? (fun y => decide (y.external_id = x.external_id)) = some x := by
  unfold dedupeByExternalId
  rw [dedupe_foldl_mem l ([], []) rfl x]
  simp

/-- C1 (amended): idempotence of the reconciliation pipeline.  Run the
planner once over a prepared transaction list against ledger state
(E1, M1).  Suppose the second run sees a ledger that contains exactly
the first run's output: every first-run existing transfer is still
visible (hE), every transfer synthesized on the first pass is visible
as an existing transfer (hT), and the ledger index maps each first-pass
deduplicated transaction's external id to an entry of its type (hM).
Provided no source transaction's external id collides with the external
id of a transfer synthesized on the first pass (hC) - the condition the
original claim overlooks - the second run's toCreate and toTypeUpdate
plans are empty. -/
theorem c1_pipeline_idempotence (txs : List Transaction)
    (accounts : List (String × Account)) (tol : Int)
    (E1 E2 : List ExistingTransfer)
    (M1 M2 : String → Option LedgerIndexEntry) (se1 se2 : Bool)
    (hE : ∀ t ∈ E1, t ∈ E2)
    (hT : ∀ t ∈ (pipelineDetected txs accounts tol E1).transfers,
      ∃ i, toExisting i t ∈ E2)
    (hM : ∀ x ∈ (computePlan txs accounts tol E1 M1 se1).deduplicated,
      ∃ e, M2 x.external_id = some e ∧ e.type = x.type)
    (hC : ∀ tx ∈ txs, ∀ t ∈ (pipelineDetected txs accounts tol E1).transfers,
      tx.external_id ≠ t.external_id) :
    (computePlan txs accounts tol E2 M2 se2).toCreate = [] ∧
    (computePlan txs accounts tol E2 M2 se2).toTypeUpdate = [] := by
  have hdet1 : (pipelineDetected txs accounts tol E1).transfers =
      mkTransfers tol E1 (scanPairs tol
        (convertCreditCardPayments txs (some accounts)).remaining) := by
    unfold pipelineDetected
    rw [detect_spec]
  have hall : ∀ p ∈ scanPairs tol
      (convertCreditCardPayments txs (some accounts)).remaining,
      pairHasExisting tol E2 p = true := by
    intro p hp
    have hgoal : (E2.find? (existingReconciles tol p.1 p.2)).isSome = true →
        pairHasExisting tol E2 p = true := fun h => h
    apply hgoal
    rw [List.find?_isSome]
    cases hfind : findMatchingExistingTransfer p.1 p.2 E1 tol with
    | some t =>
      have hfind' : E1.find? (existingReconciles tol p.1 p.2) = some t := hfind
      exact ⟨t, hE t (List.mem_of_find?_eq_some hfind'),
        List.find?_some hfind'⟩
    | none =>
      have hmem : createTransferTransaction p.1 p.2 ∈
          mkTransfers tol E1 (scanPairs tol
            (convertCreditCardPayments txs (some accounts)).remaining) := by
        unfold mkTransfers
        exact List.mem_map.mpr ⟨p, List.mem_filter.mpr
          ⟨hp, by simp [pairHasExisting, hfind]⟩, rfl⟩
      obtain ⟨i, hi⟩ := hT _ (by rw [hdet1]; exact hmem)
      rcases mem_scanPairs tol _ p hp with ⟨-, -, proc, helig⟩
      exact ⟨toExisting i (createTransferTransaction p.1 p.2), hi,
        createTransfer_reconciles tol p.1 p.2 i proc helig⟩
  have htr2 : mkTransfers tol E2 (scanPairs tol
      (convertCreditCardPayments txs (some accounts)).remaining) = [] := by
    unfold mkTransfers
    rw [List.filter_eq_nil_iff.mpr (fun p hp => by simp [hall p hp])]
    rfl
  have hdedup : ∀ x ∈ pipelineDeduplicated txs accounts tol E2,
      x ∈ pipelineDeduplicated txs accounts tol E1 := by
    intro x hx
    unfold pipelineDeduplicated at hx ⊢
    rw [mem_dedupeByExternalId] at hx ⊢
    have hall2 : (pipelineDetected txs accounts tol E2).all =
        (convertCreditCardPayments txs (some accounts)).remaining.filter
          (fun tx => decide (tx.external_id ≠ "") &&
            !(decide (tx.external_id ∈ processedIds tol
              (convertCreditCardPayments txs (some accounts)).remaining))) := by
      unfold pipelineDetected
      rw [detect_spec]
      simp only
      rw [htr2, List.nil_append]
    have hall1 : (pipelineDetected txs accounts tol E1).all =
        mkTransfers tol E1 (scanPairs tol
          (convertCreditCardPayments txs (some accounts)).remaining) ++
        (convertCreditCardPayments txs (some accounts)).remaining.filter
          (fun tx => decide (tx.external_id ≠ "") &&
            !(decide (tx.external_id ∈ processedIds tol
              (convertCreditCardPayments txs (some accounts)).remaining))) := by
      unfold pipelineDetected
      rw [detect_spec]
    rw [hall2] at hx
    rw [hall1]
    rw [List.find?_append] at hx ⊢
    rw [List.find?_append]
    cases hcc : (convertCreditCardPayments txs (some accounts)).transfers.find?
      (fun y => decide (y.external_id = x.external_id)) with
    | some y =>
      rw [hcc] at hx
      simpa using hx
    | none =>
      rw [hcc] at hx
      rw [Option.none_or] at hx ⊢
      have hxrem : x ∈ (convertCreditCardPayments txs
          (some accounts)).remaining.filter
          (fun tx => decide (tx.external_id ≠ "") &&
            !(decide (tx.external_id ∈ processedIds tol
              (convertCreditCardPayments txs (some accounts)).remaining))) :=
        List.mem_of_find?_eq_some hx
      have hxtxs : x ∈ txs :=
        ccPayments_remaining_mem txs accounts x
          ((List.filter_sublist _).subset hxrem)
      have hnone : (mkTransfers tol E1 (scanPairs tol
          (convertCreditCardPayments txs (some accounts)).remaining)).find?
          (fun y => decide (y.external_id = x.external_id)) = none := by
        rw [List.find?_eq_none]
        intro t ht
        simp only [decide_eq_true_eq]
        intro heq
        exact hC x hxtxs t (by rw [hdet1]; exact ht) heq.symm
      rw [hnone, Option.none_or]
      exact hx
  refine ⟨?_, ?_⟩
  · have hc : (computePlan txs accounts tol E2 M2 se2).toCreate =
        (pipelineDeduplicated txs accounts tol E2).filter
          (fun x => (M2 x.external_id).isNone) := rfl
    rw [hc, List.filter_eq_nil_iff]
    intro x hx
    obtain ⟨e, he, -⟩ := hM x (hdedup x hx)
    simp [he]
  · have hc : (computePlan txs accounts tol E2 M2 se2).toTypeUpdate =
        (pipelineDeduplicated txs accounts tol E2).filter
          (fun x => match M2 x.external_id with
            | none => false
            | some existing => decide (existing.type ≠ x.type)) := rfl
    rw [hc, List.filter_eq_nil_iff]
    intro x hx
    obtain ⟨e, he, hty⟩ := hM x (hdedup x hx)
    simp [he, hty]

/-- Ledger transfer snapshot after pass 1 over the sample pair: the
synthesized transfer is visible with ledger id 1. -/
def pass1Existing : List ExistingTransfer :=
  [toExisting (some "1")
    (createTransferTransaction sampleDeposit sampleWithdrawal)]

/-- Ledger index after pass 1 over the sample pair: the synthesized
transfer is stored under its external id with type transfer. -/
def pass1LedgerIndex : String → Option LedgerIndexEntry :=
  fun k =>
    if k = "transfer_w1_d1" then
      some { id := "1", type := "transfer", source_id := some "B",
             destination_id := some "A", description := none }
    else none

theorem scanPairs_sample_pair :
    scanPairs 2 [sampleDeposit, sampleWithdrawal] =
      [(sampleDeposit, sampleWithdrawal)] := by
  norm_num [scanPairs, depositsOf, withdrawalsOf, sortedTxsOf, validTxsOf,
    sortByDate, sortedInsert, isValidTx, dateLe, pairStep, isEligible,
    sampleDeposit, sampleWithdrawal, baseTx, List.find?_cons] <;> decide

theorem detected_sample_pair :
    (pipelineDetected [sampleDeposit, sampleWithdrawal] [] 2 []).transfers =
      [createTransferTransaction sampleDeposit sampleWithdrawal] := by
  unfold pipelineDetected
  rw [show (convertCreditCardPayments [sampleDeposit, sampleWithdrawal]
    (some [])).remaining = [sampleDeposit, sampleWithdrawal] from rfl]
  rw [detect_spec]
  show mkTransfers 2 [] (scanPairs 2 [sampleDeposit, sampleWithdrawal]) =
    [createTransferTransaction sampleDeposit sampleWithdrawal]
  rw [scanPairs_sample_pair]
  rfl

theorem deduplicated_sample_pair :
    (computePlan [sampleDeposit, sampleWithdrawal] [] 2 []
      (fun _ => none) true).deduplicated =
      [createTransferTransaction sampleDeposit sampleWithdrawal] := by
  show pipelineDeduplicated [sampleDeposit, sampleWithdrawal] [] 2 [] =
    [createTransferTransaction sampleDeposit sampleWithdrawal]
  unfold pipelineDeduplicated
  have hall : (pipelineDetected [sampleDeposit, sampleWithdrawal]
      [] 2 []).all =
      [createTransferTransaction sampleDeposit sampleWithdrawal] := by
    unfold pipelineDetected
    rw [show (convertCreditCardPayments [sampleDeposit, sampleWithdrawal]
      (some [])).remaining = [sampleDeposit, sampleWithdrawal] from rfl]
    rw [detect_spec]
    show mkTransfers 2 [] (scanPairs 2 [sampleDeposit, sampleWithdrawal]) ++
      [sampleDeposit, sampleWithdrawal].filter
        (fun tx => decide (tx.external_id ≠ "") &&
          !(decide (tx.external_id ∈
            processedIds 2 [sampleDeposit, sampleWithdrawal]))) =
      [createTransferTransaction sampleDeposit sampleWithdrawal]
    rw [scanPairs_sample_pair, processedIds_eq_pairExts, scanPairs_sample_pair]
    decide
  rw [hall]
  decide

/-- Witness for C1 (amended) at the sample pair: pass 1 synthesizes one
transfer; with the ledger then holding exactly that output, pass 2
plans no creation. -/
theorem c1_pipeline_idempotence_witness :
    (computePlan [sampleDeposit, sampleWithdrawal] [] 2 pass1Existing
      pass1LedgerIndex true).toCreate = [] :=
  (c1_pipeline_idempotence [sampleDeposit, sampleWithdrawal] [] 2 []
    pass1Existing (fun _ => none) pass1LedgerIndex true true
    (by intro t ht; cases ht)
    (by
      rw [detected_sample_pair]
      intro t ht
      rw [List.mem_singleton] at ht
      subst ht
      exact ⟨some "1", by rw [pass1Existing]; exact List.mem_singleton.mpr rfl⟩)
    (by
      rw [deduplicated_sample_pair]
      intro x hx
      rw [List.mem_singleton] at hx
      subst hx
      exact ⟨_, rfl, rfl⟩)
    (by
      rw [detected_sample_pair]
      intro tx htx t ht
      rw [List.mem_singleton] at ht
      subst ht
      simp only [List.mem_cons, List.not_mem_nil, or_false] at htx
      rcases htx with h | h <;> (subst h; decide))).1

/-- Deposit whose external id collides with the id of the transfer that
pass 1 synthesizes from the sample pair. -/
def collidingRecord : Transaction :=
  { baseTx with
      type := "deposit", date := some 19790, amount := some 7,
      destination_id := some "C", external_id := "transfer_w1_d1" }

theorem scanPairs_with_colliding :
    scanPairs 2 [sampleDeposit, sampleWithdrawal, collidingRecord] =
      [(sampleDeposit, sampleWithdrawal)] := by
  norm_num [scanPairs, depositsOf, withdrawalsOf, sortedTxsOf, validTxsOf,
    sortByDate, sortedInsert, isValidTx, dateLe, pairStep, isEligible,
    sampleDeposit, sampleWithdrawal, collidingRecord, baseTx,
    List.find?_cons] <;> decide

theorem detected_all_with_colliding :
    (pipelineDetected [sampleDeposit, sampleWithdrawal, collidingRecord]
      [] 2 []).all =
      [createTransferTransaction sampleDeposit sampleWithdrawal,
        collidingRecord] := by
  unfold pipelineDetected
  rw [show (convertCreditCardPayments
    [sampleDeposit, sampleWithdrawal, collidingRecord]
    (some [])).remaining =
    [sampleDeposit, sampleWithdrawal, collidingRecord] from rfl]
  rw [detect_spec]
  show mkTransfers 2 []
      (scanPairs 2 [sampleDeposit, sampleWithdrawal, collidingRecord]) ++
    [sampleDeposit, sampleWithdrawal, collidingRecord].filter
      (fun tx => decide (tx.external_id ≠ "") &&
        !(decide (tx.external_id ∈
          processedIds 2 [sampleDeposit, sampleWithdrawal,
            collidingRecord]))) =
    [createTransferTransaction sampleDeposit sampleWithdrawal,
      collidingRecord]
  rw [scanPairs_with_colliding, processedIds_eq_pairExts,
    scanPairs_with_colliding]
  decide

theorem pair_reconciled_by_pass1 :
    pairHasExisting 2 pass1Existing (sampleDeposit, sampleWithdrawal) =
      true := by
  norm_num [pairHasExisting, findMatchingExistingTransfer,
    existingReconciles, toExisting, createTransferTransaction,
    combineTransferTags, jsOrOpt, jsStr, strTruthy, pass1Existing,
    sampleDeposit, sampleWithdrawal, baseTx, List.find?_cons] <;> decide

theorem detected_all_with_colliding_pass2 :
    (pipelineDetected [sampleDeposit, sampleWithdrawal, collidingRecord]
      [] 2 pass1Existing).all = [collidingRecord] := by
  unfold pipelineDetected
  rw [show (convertCreditCardPayments
    [sampleDeposit, sampleWithdrawal, collidingRecord]
    (some [])).remaining =
    [sampleDeposit, sampleWithdrawal, collidingRecord] from rfl]
  rw [detect_spec]
  show mkTransfers 2 pass1Existing
      (scanPairs 2 [sampleDeposit, sampleWithdrawal, collidingRecord]) ++
    [sampleDeposit, sampleWithdrawal, collidingRecord].filter
      (fun tx => decide (tx.external_id ≠ "") &&
        !(decide (tx.external_id ∈
          processedIds 2 [sampleDeposit, sampleWithdrawal,
            collidingRecord]))) = [collidingRecord]
  rw [scanPairs_with_colliding, processedIds_eq_pairExts,
    scanPairs_with_colliding]
  rw [show mkTransfers 2 pass1Existing
    [(sampleDeposit, sampleWithdrawal)] =
    ([(sampleDeposit, sampleWithdrawal)].filter (fun p =>
      !pairHasExisting 2 pass1Existing p)).map
      (fun p => createTransferTransaction p.1 p.2) from rfl]
  rw [List.filter_cons_of_neg (by rw [pair_reconciled_by_pass1]; decide)]
  decide

/-- Counterexample to C1 as stated: with a source record whose
external id equals the id of the transfer pass 1 synthesizes, pass 1
creates exactly that transfer (the colliding record is deduplicated
away), and pass 2 - run against a ledger holding exactly pass-1's
output - plans a nonempty toTypeUpdate: the colliding deposit now
differs in type from the stored transfer and would be delete-recreated
on every run. -/
theorem c1_pipeline_idempotence_counterexample :
    (computePlan [sampleDeposit, sampleWithdrawal, collidingRecord] [] 2 []
      (fun _ => none) true).toCreate =
      [createTransferTransaction sampleDeposit sampleWithdrawal] ∧
    (computePlan [sampleDeposit, sampleWithdrawal, collidingRecord] [] 2
      pass1Existing pass1LedgerIndex true).toTypeUpdate =
      [collidingRecord] := by
  constructor
  · show (pipelineDeduplicated [sampleDeposit, sampleWithdrawal,
      collidingRecord] [] 2 []).filter
        (fun x => ((fun _ => (none : Option LedgerIndexEntry))
          x.external_id).isNone) = _
    unfold pipelineDeduplicated
    rw [detected_all_with_colliding]
    decide
  · show (pipelineDeduplicated [sampleDeposit, sampleWithdrawal,
      collidingRecord] [] 2 pass1Existing).filter
        (fun x => match pass1LedgerIndex x.external_id with
          | none => false
          | some existing => decide (existing.type ≠ x.type)) = _
    unfold pipelineDeduplicated
    rw [detected_all_with_colliding_pass2]
    decide

end BankImporter
